import Mathlib

/-!
Verification of the widget interaction and picking subsystem of
`source/blender/windowmanager/intern/wm_widgets.c`.

The C code is shallowly embedded as follows.

* A `wmWidget` is a record of the flag bits and data slots the claims are
  about; the per-widget function pointers (`select`, `invoke`, `handler`,
  `get_cursor`) are modelled by their observable data (presence booleans,
  the cursor value a `get_cursor` callback would return).
* Pointers are modelled by unique numeric tags into an explicit store
  (`wmWidgetMap.store`); freeing a widget removes it from the store and
  appends its tag to a ledger (`freed` for `MEM_freeN` of the struct,
  `dataFreed` for `wm_widget_data_free`).
* The global `draw_widgets` `GHash` is an association list from idname to
  widget tag, `none` modelling the `NULL` (not yet created / already
  freed) state.
* Side effects that leave the widget map (region redraw tags, cursor
  changes, callback and operator invocations) are appended to an `events`
  trace.
* `GLuint` values are naturals below `2 ^ 32`; the implicit conversions of
  the C code (`-1` as `GLuint`, `GLuint` results returned as `int`) are
  made explicit.
-/

namespace WmWidgets

/-- Record of one widget (`wmWidget`).  The flag bits `WM_WIDGET_HIDDEN`,
`WM_WIDGET_HIGHLIGHT`, `WM_WIDGET_SELECTED`, `WM_WIDGET_ACTIVE` are the
booleans `hidden`, `highlighted`, `selected`, `activeFlag`.  `hasSelect`,
`hasInvoke`, `hasHandler` model non-NULL `select` / `invoke` / `handler`
function pointers; `cursor = some c` models a `get_cursor` callback that
returns `c`.  `interaction_data` records whether the `interaction_data`
pointer is non-NULL.  The `scale` field written by
`widget_calculate_scale` is not modelled: it is consumed only by the draw
pass and no claim mentions it. -/
structure wmWidget where
  tag : Nat
  idname : String
  wgroup : Nat
  hidden : Bool
  highlighted : Bool
  selected : Bool
  activeFlag : Bool
  highlighted_part : Nat
  hasSelect : Bool
  cursor : Option Nat
  hasInvoke : Bool
  hasHandler : Bool
  opname : Option String
  interaction_data : Bool
  deriving DecidableEq, Inhabited

/-- Observable side effects of the subsystem: widget callbacks being
invoked, `WM_cursor_set`, `ED_region_tag_redraw`, `WM_event_add_mousemove`
and the external operator dispatcher. -/
inductive wmEffect where
  | selectCb (tag : Nat) (action : Nat)
  | cursorSet (cursor : Nat)
  | redrawTag
  | mousemoveAdd
  | invokeCb (tag : Nat)
  | dispatchOp (opname : String)
  deriving DecidableEq

/-- One widget group (`wmWidgetGroup`).  `poll` is the result of
`wgroup->type->poll` for the current pass (`true` when the type has no
poll callback), `fresh` is the widget set the factory callback
`wgroup->type->create` produces during this pass, and `widgets` are the
tags of the widgets currently owned by the group. -/
structure wmWidgetGroup where
  gid : Nat
  poll : Bool
  fresh : List wmWidget
  widgets : List Nat
  deriving DecidableEq, Inhabited

/-- The widget map together with the pieces of global state the code
manipulates: the widget heap (`store`), the global `draw_widgets` hash,
the interaction context (`highlighted_widget`, `activegroup`,
`active_widget`, `selected_widgets` with its count being the list
length), the free ledgers and the event trace. -/
structure wmWidgetMap where
  store : List wmWidget
  widgetgroups : List wmWidgetGroup
  draw_widgets : Option (List (String × Nat))
  highlighted_widget : Option Nat
  activegroup : Option Nat
  active_widget : Option Nat
  selected_widgets : List Nat
  freed : List Nat
  dataFreed : List Nat
  events : List wmEffect
  deriving DecidableEq, Inhabited

/-- Dereference a widget pointer: first store entry with the given tag. -/
def findW : List wmWidget → Nat → Option wmWidget
  | [], _ => none
  | w :: s, t => if w.tag = t then some w else findW s t

/-- Dereference with a default; all theorems keep the tags they use in the
store, so the default is never observed there. -/
def getW (store : List wmWidget) (t : Nat) : wmWidget :=
  (findW store t).getD default

/-- Mutation through a widget pointer: update the store entries with the
tag in place. -/
def setW (store : List wmWidget) (t : Nat) (f : wmWidget → wmWidget) : List wmWidget :=
  store.map (fun w => if w.tag = t then f w else w)

/-- Unlink a widget from the store (part of freeing it). -/
def removeW : List wmWidget → Nat → List wmWidget
  | [], _ => []
  | w :: s, t => if w.tag = t then removeW s t else w :: removeW s t

/-- `BLI_ghash_lookup` on the idname-keyed widget hash. -/
def ghashLookup : List (String × Nat) → String → Option Nat
  | [], _ => none
  | p :: t, k => if p.1 = k then some p.2 else ghashLookup t k

/-- Key membership in the hash. -/
def ghashHasKey : List (String × Nat) → String → Bool
  | [], _ => false
  | p :: t, k => if p.1 = k then true else ghashHasKey t k

/-- `BLI_ghash_reinsert`: replace the value under an existing key, insert
otherwise. -/
def ghashReinsert (h : List (String × Nat)) (k : String) (v : Nat) : List (String × Nat) :=
  if ghashHasKey h k then h.map (fun p => if p.1 = k then (k, v) else p)
  else h ++ [(k, v)]

/-- The current contents of the `draw_widgets` hash (empty when `NULL`). -/
def cacheOf (st : wmWidgetMap) : List (String × Nat) :=
  st.draw_widgets.getD []

/-- Value of the `CURSOR_STD` constant used by
`wm_widgetmap_set_highlighted_widget` when un-highlighting. -/
def CURSOR_STD : Nat := 0

/-- Value of the `SEL_SELECT` action passed to the select callback. -/
def SEL_SELECT : Nat := 1

/-- The second disjunct of the C guard of
`wm_widgetmap_set_highlighted_widget` being false: a NULL widget, or a
sub-part code equal to the widget's current one. -/
def highlightSamePart (st : wmWidgetMap) (w : Option Nat) (part : Nat) : Prop :=
  match w with
  | none => True
  | some t => part = (getW st.store t).highlighted_part

instance (st : wmWidgetMap) (w : Option Nat) (part : Nat) :
    Decidable (highlightSamePart st w part) :=
  match w with
  | none => isTrue trivial
  | some t => inferInstanceAs (Decidable (part = (getW st.store t).highlighted_part))

/-- The cursor update of `wm_widgetmap_set_highlighted_widget` when a
widget becomes highlighted: `WM_cursor_set` runs only when the widget has
a `get_cursor` callback. -/
def addCursorEvent (st : wmWidgetMap) (t : Nat) : wmWidgetMap :=
  match (getW st.store t).cursor with
  | some c => { st with events := st.events ++ [wmEffect.cursorSet c] }
  | none => st

/-- Shallow embedding of `wm_widgetmap_set_highlighted_widget`
(wm_widgets.c:1130-1164).  `hasC` models a non-NULL `C` (context)
argument.  The body runs only under the C guard
`(widget != wmap->...highlighted_widget) || (widget && part != widget->highlighted_part)`. -/
def wm_widgetmap_set_highlighted_widget (st : wmWidgetMap) (hasC : Bool)
    (w : Option Nat) (part : Nat) : wmWidgetMap :=
  if w = st.highlighted_widget ∧ highlightSamePart st w part then st
  else
    let st1 :=
      match st.highlighted_widget with
      | some h =>
        let s := setW st.store h (fun x => { x with highlighted := false, highlighted_part := 0 })
        { st with store := s }
      | none => st
    let st2 := { st1 with highlighted_widget := w }
    match w with
    | some t =>
      let s3 := setW st2.store t (fun x => { x with highlighted := true, highlighted_part := part })
      let st3 := { st2 with store := s3 }
      let st4 := { st3 with activegroup := some (getW st3.store t).wgroup }
      let st5 := if hasC then addCursorEvent st4 t else st4
      if hasC then { st5 with events := st5.events ++ [wmEffect.redrawTag] } else st5
    | none =>
      let st3 := { st2 with activegroup := none }
      let st4 :=
        if hasC then { st3 with events := st3.events ++ [wmEffect.cursorSet CURSOR_STD] }
        else st3
      if hasC then { st4 with events := st4.events ++ [wmEffect.redrawTag] } else st4

/-- Shallow embedding of `wm_widget_select` (wm_widgets.c:731-751): append
to the selection array, set the flag, fire the select callback if present,
re-highlight the widget and tag a redraw.  A NULL widget or an
already-selected widget returns immediately. -/
def wm_widget_select (st : wmWidgetMap) (w : Option Nat) : wmWidgetMap :=
  match w with
  | none => st
  | some t =>
    if (getW st.store t).selected then st
    else
      let st1 := { st with selected_widgets := st.selected_widgets ++ [t] }
      let st2 := { st1 with store := setW st1.store t (fun x => { x with selected := true }) }
      let st3 :=
        if (getW st2.store t).hasSelect then
          { st2 with events := st2.events ++ [wmEffect.selectCb t SEL_SELECT] }
        else st2
      let st4 := wm_widgetmap_set_highlighted_widget st3 true (some t)
        (getW st3.store t).highlighted_part
      { st4 with events := st4.events ++ [wmEffect.redrawTag] }

/-- Index of the first selection-array entry whose widget has the given
idname (the `widget_compare` search loop of `wm_widget_deselect`). -/
def selFindIdx (st : wmWidgetMap) (name : String) : List Nat → Option Nat
  | [] => none
  | x :: rest =>
    if (getW st.store x).idname = name then some 0
    else (selFindIdx st name rest).map (fun i => i + 1)

/-- Shallow embedding of `wm_widget_deselect` (wm_widgets.c:694-725).  The
C routine finds the first entry whose idname matches (`widget_compare`),
shifts the tail left over it and then shrinks the count by one (freeing
the array when the count reaches zero); on a list this is `eraseIdx` at
the match and `dropLast` when nothing matches. -/
def wm_widget_deselect (st : wmWidgetMap) (t : Nat) : wmWidgetMap :=
  let name := (getW st.store t).idname
  let sel' :=
    match selFindIdx st name st.selected_widgets with
    | some i => st.selected_widgets.eraseIdx i
    | none => st.selected_widgets.dropLast
  let st1 := { st with selected_widgets := sel' }
  let st2 := { st1 with store := setW st1.store t (fun x => { x with selected := false }) }
  { st2 with events := st2.events ++ [wmEffect.redrawTag] }

/-- State of the widget map at the point where
`wm_widgetmap_set_active_widget` hands control to
`WM_operator_name_call_ptr`: the widget's own invoke/handler pair (when
both exist) has set the `WM_WIDGET_ACTIVE` flag and run `invoke`, the
active slot has been set unconditionally, and the dispatch of the bound
operator has been issued. -/
def wm_widgetmap_active_pre (st : wmWidgetMap) (t : Nat) (opname : String) : wmWidgetMap :=
  let w := getW st.store t
  let st1 :=
    if w.hasInvoke && w.hasHandler then
      let s := { st with store := setW st.store t (fun x => { x with activeFlag := true }) }
      { s with events := s.events ++ [wmEffect.invokeCb t] }
    else st
  let st2 := { st1 with active_widget := some t }
  { st2 with events := st2.events ++ [wmEffect.dispatchOp opname] }

/-- Shallow embedding of `wm_widgetmap_set_active_widget`
(wm_widgets.c:1171-1231).  `otFound name` models `WM_operatortype_find`
succeeding; `dispatch` models the external `WM_operator_name_call_ptr` as
an arbitrary transformation of the widget-map state (the dispatched
operator may re-enter the widget API, in particular clear the active
slot).  Passing `w = none` is the deactivation branch. -/
def wm_widgetmap_set_active_widget (otFound : String → Bool)
    (dispatch : wmWidgetMap → wmWidgetMap) (st : wmWidgetMap) (w : Option Nat) : wmWidgetMap :=
  match w with
  | some t =>
    let wd := getW st.store t
    match wd.opname with
    | some op =>
      if otFound op then
        let st2 := dispatch (wm_widgetmap_active_pre st t op)
        if st2.active_widget = none then
          let s := setW st2.store t (fun x => { x with activeFlag := false, interaction_data := false })
          { st2 with store := s }
        else st2
      else
        { st with active_widget := none }
    | none =>
      if wd.hasInvoke && wd.hasHandler then
        let st1 := { st with store := setW st.store t (fun x => { x with activeFlag := true }) }
        let st2 := { st1 with events := st1.events ++ [wmEffect.invokeCb t] }
        { st2 with active_widget := some t }
      else st
  | none =>
    let st1 :=
      match st.active_widget with
      | some t =>
        let s := setW st.store t (fun x => { x with activeFlag := false, interaction_data := false })
        { st with store := s }
      | none => st
    let st2 := { st1 with active_widget := none }
    { st2 with events := st2.events ++ [wmEffect.redrawTag, wmEffect.mousemoveAdd] }

/-- Shallow embedding of `wm_widget_delete` with a non-NULL list
(wm_widgets.c:169-175): free the widget data, unlink it, free the
struct.  In the store model unlinking and freeing coincide; the ledgers
record both frees. -/
def wm_widget_delete (st : wmWidgetMap) (t : Nat) : wmWidgetMap :=
  { st with store := removeW st.store t,
            dataFreed := st.dataFreed ++ [t],
            freed := st.freed ++ [t] }

/-- The per-group deletion loop of `WM_widgetmap_widgets_update`
(wm_widgets.c:248-266): selected widgets are detached (kept in the store,
removed from the group), a highlighted widget is detached and remembered
in the local `highlighted`, everything else is deleted. -/
def pruneWidgets : wmWidgetMap → Option Nat → List Nat → wmWidgetMap × Option Nat
  | st, hl, [] => (st, hl)
  | st, hl, t :: rest =>
    let w := getW st.store t
    if w.selected then pruneWidgets st hl rest
    else if w.highlighted then pruneWidgets st (some t) rest
    else pruneWidgets (wm_widget_delete st t) hl rest

/-- The factory call plus the insertion loop of
`WM_widgetmap_widgets_update` (wm_widgets.c:268-279): the fresh widgets
are registered to the group (which sets `widget->wgroup`) and every
non-hidden one is reinserted into the `draw_widgets` hash under its
idname. -/
def insertFresh : wmWidgetMap → Nat → List wmWidget → wmWidgetMap
  | st, _, [] => st
  | st, gid, w :: rest =>
    let w' := { w with wgroup := gid }
    let st1 := { st with store := st.store ++ [w'] }
    let st2 :=
      if w'.hidden then st1
      else
        let dw := st1.draw_widgets.map (fun h => ghashReinsert h w'.idname w'.tag)
        { st1 with draw_widgets := dw }
    insertFresh st2 gid rest

/-- One iteration of the widget-group loop of
`WM_widgetmap_widgets_update` (wm_widgets.c:245-284): groups failing
their poll are skipped entirely; a passing group is pruned, its factory
produces the fresh widget set and the non-hidden fresh widgets enter the
hash. -/
def updateGroup (st : wmWidgetMap) (hl : Option Nat) (g : wmWidgetGroup) :
    wmWidgetMap × Option Nat × wmWidgetGroup :=
  if g.poll then
    let p := pruneWidgets st hl g.widgets
    let st2 := insertFresh p.1 g.gid g.fresh
    (st2, p.2, { g with widgets := g.fresh.map (fun w => w.tag), fresh := [] })
  else (st, hl, g)

/-- The widget-group loop of `WM_widgetmap_widgets_update`, threading the
store, the `highlighted` local and the rebuilt group list. -/
def updateGroupsAux : wmWidgetMap → Option Nat → List wmWidgetGroup →
    wmWidgetMap × Option Nat × List wmWidgetGroup
  | st, hl, [] => (st, hl, [])
  | st, hl, g :: gs =>
    let r1 := updateGroup st hl g
    let r2 := updateGroupsAux r1.1 r1.2.1 gs
    (r2.1, r2.2.1, r1.2.2 :: r2.2.2)

/-- Shallow embedding of `widget_highlight_update`
(wm_widgets.c:218-223): the new instance takes the highlight flag, the
highlighted slot and the old instance's sub-part code. -/
def widget_highlight_update (st : wmWidgetMap) (old nw : Nat) : wmWidgetMap :=
  let oldPart := (getW st.store old).highlighted_part
  let s := setW st.store nw (fun x => { x with highlighted := true, highlighted_part := oldPart })
  let st1 := { st with store := s }
  { st1 with highlighted_widget := some nw }

/-- The highlight reconciliation of `WM_widgetmap_widgets_update`
(wm_widgets.c:286-298): look the detached highlighted widget up by idname
in the hash; on success transfer the highlight and free it through
`wm_widget_delete(NULL, ...)`, otherwise free the struct with
`MEM_SAFE_FREE` (which does not run `wm_widget_data_free`) and clear the
slot. -/
def highlightReconcile (st : wmWidgetMap) : Option Nat → wmWidgetMap
  | none => st
  | some h =>
    match ghashLookup (cacheOf st) (getW st.store h).idname with
    | some nw =>
      let st1 := widget_highlight_update st h nw
      { st1 with store := removeW st1.store h,
                 dataFreed := st1.dataFreed ++ [h],
                 freed := st1.freed ++ [h] }
    | none =>
      { st with store := removeW st.store h,
                freed := st.freed ++ [h],
                highlighted_widget := none }

/-- The body of the selection reconciliation loop of
`WM_widgetmap_widgets_update` (wm_widgets.c:301-320): an entry whose
idname has no replacement in the hash is skipped (`continue`); otherwise
the highlight moves if the old entry carried it, the old entry's data is
freed (the struct itself is deliberately leaked, see the XXX comment in
the source), the replacement gets the selected flag and the array slot is
rebound. -/
def selReconcileAux : wmWidgetMap → List Nat → wmWidgetMap × List Nat
  | st, [] => (st, [])
  | st, selOld :: rest =>
    match ghashLookup (cacheOf st) (getW st.store selOld).idname with
    | none =>
      let r := selReconcileAux st rest
      (r.1, selOld :: r.2)
    | some selNew =>
      let st1 :=
        if (getW st.store selOld).highlighted then widget_highlight_update st selOld selNew
        else st
      let st2 := { st1 with dataFreed := st1.dataFreed ++ [selOld] }
      let s3 := setW st2.store selNew (fun x => { x with selected := true })
      let st3 := { st2 with store := s3 }
      let r := selReconcileAux st3 rest
      (r.1, selNew :: r.2)

/-- The selection reconciliation of `WM_widgetmap_widgets_update`,
guarded by the array being non-NULL. -/
def selectedReconcile (st : wmWidgetMap) : wmWidgetMap :=
  if st.selected_widgets = [] then st
  else
    let r := selReconcileAux st st.selected_widgets
    { r.1 with selected_widgets := r.2 }

/-- Shallow embedding of `WM_widgetmap_widgets_update`
(wm_widgets.c:225-323).  The `draw_widgets` hash is created when NULL; an
active widget short-circuits the pass and is merely reinserted into the
hash when not hidden; otherwise every group passing its poll is pruned
and regenerated and the highlight and selection contexts are reconciled
against the rebuilt hash.  (`widget_calculate_scale` only writes the
unmodelled `scale` field and is dropped.) -/
def WM_widgetmap_widgets_update (st : wmWidgetMap) : wmWidgetMap :=
  let st0 := if st.draw_widgets = none then { st with draw_widgets := some [] } else st
  match st0.active_widget with
  | some t =>
    let w := getW st0.store t
    if w.hidden then st0
    else { st0 with draw_widgets :=
            st0.draw_widgets.map (fun h => ghashReinsert h w.idname t) }
  | none =>
    if st0.widgetgroups = [] then st0
    else
      let r := updateGroupsAux st0 none st0.widgetgroups
      let st1 := { r.1 with widgetgroups := r.2.2 }
      let st2 := highlightReconcile st1 r.2.1
      selectedReconcile st2

/-- One record of the `GPU_select` hit buffer as read by
`wm_widget_find_highlighted_3D_intern`: the loop consumes
`buffer[4 * a + 1]` (the minimum fragment depth of the hit) and
`buffer[4 * a + 3]` (the selection name, `(widget_index << 8) | part`).
All words are `GLuint`, naturals below `2 ^ 32`. -/
structure SelectHit where
  numnames : Nat
  depthMin : Nat
  depthMax : Nat
  name : Nat
  deriving DecidableEq, Inhabited

/-- The value of `(GLuint)(-1)`, the initial `minval` sentinel of the hit
loop. -/
def U32_MAX : Nat := 4294967295

/-- Conversion of a `GLuint` to the `int` return value of
`wm_widget_find_highlighted_3D_intern`. -/
def ofU32 (n : Nat) : Int :=
  if n < 2147483648 then (n : Int) else (n : Int) - 4294967296

/-- The hit-resolution loop of `wm_widget_find_highlighted_3D_intern`
(wm_widgets.c:1035-1043): scan the records, taking a record whenever the
sentinel is still (or again) present in `minval` or its depth is strictly
below the current minimum. -/
def hitScan : List SelectHit → Nat × Nat → Nat × Nat
  | [], acc => acc
  | h :: rest, acc =>
    if acc.2 = U32_MAX ∨ h.depthMin < acc.1 then hitScan rest (h.depthMin, h.name)
    else hitScan rest acc

/-- The result computation of `wm_widget_find_highlighted_3D_intern`
(wm_widgets.c:1024-1048) given the decoded hit buffer: a single hit
returns its name, several hits run the minimum-depth scan with
`mindep = 0`, `minval = (GLuint)-1`, no hits return `-1`. -/
def wm_widget_find_highlighted_3D_intern (buffer : List SelectHit) : Int :=
  if buffer.length = 1 then ofU32 (buffer.headD default).name
  else if 1 < buffer.length then ofU32 (hitScan buffer (0, U32_MAX)).2
  else -1

/-- The reference loop without the sentinel: strict minimum-depth scan
keeping the first record seen at each depth level. -/
def firstMinAcc : List SelectHit → Nat → Nat → Nat × Nat
  | [], d, v => (d, v)
  | h :: rest, d, v =>
    if h.depthMin < d then firstMinAcc rest h.depthMin h.name
    else firstMinAcc rest d v

/-- Minimum of the record depths below an initial bound. -/
def minDepthFrom (d : Nat) (l : List SelectHit) : Nat :=
  l.foldl (fun a h => min a h.depthMin) d

/-- Minimum depth of a non-empty hit list. -/
def minDepth : List SelectHit → Nat
  | [] => 0
  | h :: rest => minDepthFrom h.depthMin rest

/-- First record with the given depth. -/
def findHitAtDepth : List SelectHit → Nat → Option SelectHit
  | [], _ => none
  | h :: rest, m => if h.depthMin = m then some h else findHitAtDepth rest m

/-- First record of a hit list attaining the minimum depth. -/
def firstMinHit (l : List SelectHit) : SelectHit :=
  (findHitAtDepth l (minDepth l)).getD default

/-- The fixed hotspot of `wm_widget_find_highlighted_3D`
(wm_widgets.c:1070): `const float hotspot = 14.0f`.  The two render
passes use `0.5f * hotspot` and `0.2f * hotspot`; the float products are
modelled by exact rationals (`0.2f * 14.0f` rounds to `2.8000001f`,
within one part in `10 ^ 7` of `14 / 5`). -/
def WIDGET_HOTSPOT : ℚ := 14

/-- Decoding of a winning selection id (wm_widgets.c:1089-1090):
`widget_index = ret >> 8`, `part = ret & 255`. -/
def decodeSelectId (ret : Int) : Nat × Nat :=
  (ret.toNat / 256, ret.toNat % 256)

/-- Shallow embedding of `wm_widget_find_highlighted_3D`
(wm_widgets.c:1066-1097).  `pick r` abstracts
`wm_widget_find_highlighted_3D_intern(visible_widgets, C, event, r)`, the
full GPU render-and-resolve pass at pick-rectangle half-width `r`.  The
first pass runs at `0.5f * hotspot`; only when it hits is the second pass
run at `0.2f * hotspot`, and its result is preferred when it is a hit. -/
def wm_widget_find_highlighted_3D (pick : ℚ → Int) : Option (Nat × Nat) :=
  let ret := pick ((1 / 2) * WIDGET_HOTSPOT)
  if ret ≠ -1 then
    let retsec := pick ((1 / 5) * WIDGET_HOTSPOT)
    let ret2 := if retsec ≠ -1 then retsec else ret
    some (decodeSelectId ret2)
  else none

/-- Tags of all widgets currently living in the store. -/
def storeTags (st : wmWidgetMap) : List Nat := st.store.map (fun w => w.tag)

/-- Tags owned by the groups of the map. -/
def allGroupTags (st : wmWidgetMap) : List Nat :=
  st.widgetgroups.bind (fun g => g.widgets)

/-- Tags of the widgets the group factories will produce this pass. -/
def allFreshTags (st : wmWidgetMap) : List Nat :=
  st.widgetgroups.bind (fun g => g.fresh.map (fun w => w.tag))

/-- Sanity conditions a widget map reachable through the API satisfies:
distinct widget instances carry distinct tags, group-owned tags exist in
the store and are owned by one group only, and the tags the factories
will hand out are fresh. -/
def UpdateWF (st : wmWidgetMap) : Prop :=
  (storeTags st).Nodup ∧
  (allGroupTags st).Nodup ∧
  (∀ t ∈ allGroupTags st, t ∈ storeTags st) ∧
  (allFreshTags st).Nodup ∧
  (∀ t ∈ allFreshTags st, t ∉ storeTags st)

instance (st : wmWidgetMap) : Decidable (UpdateWF st) := by
  unfold UpdateWF; infer_instance

/-- The selection bookkeeping invariant of the widget map: the selection
array has no duplicates, refers only to live widgets and contains a
widget exactly when its `WM_WIDGET_SELECTED` flag is set. -/
def SelInvariant (st : wmWidgetMap) : Prop :=
  st.selected_widgets.Nodup ∧
  (∀ t ∈ st.selected_widgets, t ∈ storeTags st) ∧
  (∀ w ∈ st.store, w.selected = true ↔ w.tag ∈ st.selected_widgets)

instance (st : wmWidgetMap) : Decidable (SelInvariant st) := by
  unfold SelInvariant; infer_instance

/-- The widgets an update pass inserts into the `draw_widgets` hash (in
insertion order): the non-hidden factory output of every group passing
its poll. -/
def freshVisibleOf (gs : List wmWidgetGroup) : List wmWidget :=
  (gs.filter (fun g => g.poll)).bind (fun g => g.fresh.filter (fun w => !w.hidden))

/-- One successful iteration of the selection reconciliation loop
(wm_widgets.c:308-319), on the old array entry `s` and its replacement
`n`: the highlight transfers when the old entry carried it, the old
entry's data is freed, the replacement gets the selected flag. -/
def selStep (st : wmWidgetMap) (s n : Nat) : wmWidgetMap :=
  let st1 := if (getW st.store s).highlighted then widget_highlight_update st s n else st
  let st2 := { st1 with dataFreed := st1.dataFreed ++ [s] }
  { st2 with store := setW st2.store n (fun x => { x with selected := true }) }

/-- The visible factory widgets of the poll-passing groups carrying a
given idname: the candidates the rebuilt hash can map that idname to. -/
def freshNamedList (gs : List wmWidgetGroup) (k : String) : List wmWidget :=
  (freshVisibleOf gs).filter (fun w => w.idname = k)

/-- Concrete hit buffer for the C1 witness: three hits, two of them tied
at the minimum depth 2. -/
def exC1buf : List SelectHit :=
  [⟨1, 5, 5, 7⟩, ⟨1, 2, 2, 9⟩, ⟨1, 2, 2, 11⟩]

/-- Concrete hit buffer refuting C1 as stated: the unique minimum-depth
record (depth 0) carries the id `2 ^ 32 - 1`. -/
def exC1sentinel : List SelectHit :=
  [⟨1, 0, 0, 4294967295⟩, ⟨1, 5, 5, 7⟩]

/-- Concrete state for the C6 counterexample: widget 1 has the bound
operator "tr" but neither an invoke nor a handler callback. -/
def exC6st : wmWidgetMap :=
  { store := [{ tag := 1, idname := "a", wgroup := 0, hidden := false, highlighted := false,
                selected := false, activeFlag := false, highlighted_part := 0,
                hasSelect := false, cursor := none, hasInvoke := false, hasHandler := false,
                opname := some "tr", interaction_data := false }],
    widgetgroups := [], draw_widgets := none, highlighted_widget := none,
    activegroup := none, active_widget := none, selected_widgets := [],
    freed := [], dataFreed := [], events := [] }

/-- Concrete state for the C9 witness: widget 1 highlighted with sub-part
code 4. -/
def exC9st : wmWidgetMap :=
  { store := [{ tag := 1, idname := "a", wgroup := 0, hidden := false, highlighted := true,
                selected := false, activeFlag := false, highlighted_part := 4,
                hasSelect := false, cursor := some 9, hasInvoke := false, hasHandler := false,
                opname := none, interaction_data := false }],
    widgetgroups := [], draw_widgets := none, highlighted_widget := some 1,
    activegroup := some 0, active_widget := none, selected_widgets := [],
    freed := [], dataFreed := [], events := [] }

/-- Concrete state for the C10 witness: widget 1 selected, widget 2
selectable and unselected. -/
def exC10st : wmWidgetMap :=
  { store := [{ tag := 1, idname := "a", wgroup := 0, hidden := false, highlighted := false,
                selected := true, activeFlag := false, highlighted_part := 0,
                hasSelect := true, cursor := none, hasInvoke := false, hasHandler := false,
                opname := none, interaction_data := false },
              { tag := 2, idname := "b", wgroup := 0, hidden := false, highlighted := false,
                selected := false, activeFlag := false, highlighted_part := 0,
                hasSelect := false, cursor := none, hasInvoke := false, hasHandler := false,
                opname := none, interaction_data := false }],
    widgetgroups := [], draw_widgets := none, highlighted_widget := none,
    activegroup := none, active_widget := none, selected_widgets := [1],
    freed := [], dataFreed := [], events := [] }

/-- Concrete state for the C8 witness: widget 1 of idname "a" selected,
widget 2 of idname "b" unselected. -/
def exC8st : wmWidgetMap :=
  { store := [{ tag := 1, idname := "a", wgroup := 0, hidden := false, highlighted := false,
                selected := true, activeFlag := false, highlighted_part := 0,
                hasSelect := false, cursor := none, hasInvoke := false, hasHandler := false,
                opname := none, interaction_data := false },
              { tag := 2, idname := "b", wgroup := 0, hidden := false, highlighted := false,
                selected := false, activeFlag := false, highlighted_part := 0,
                hasSelect := true, cursor := none, hasInvoke := false, hasHandler := false,
                opname := none, interaction_data := false }],
    widgetgroups := [], draw_widgets := none, highlighted_widget := none,
    activegroup := none, active_widget := none, selected_widgets := [1],
    freed := [], dataFreed := [], events := [] }

/-- The components of the widget map the insertion loop never touches
(for the `draw_widgets` hash only its non-NULLness). -/
def frameOf (st : wmWidgetMap) : List wmWidgetGroup × Option Nat × Option Nat ×
    Option Nat × List Nat × List Nat × List Nat × List wmEffect × Bool :=
  (st.widgetgroups, st.highlighted_widget, st.activegroup, st.active_widget,
   st.selected_widgets, st.freed, st.dataFreed, st.events, st.draw_widgets.isSome)

/-- Tags owned by a list of groups. -/
def groupsWidgetTags (gs : List wmWidgetGroup) : List Nat := gs.bind (fun g => g.widgets)

/-- Tags of the factory output of a list of groups. -/
def groupsFreshTags (gs : List wmWidgetGroup) : List Nat :=
  gs.bind (fun g => g.fresh.map (fun w => w.tag))

def exC2st : wmWidgetMap :=
  { store := [{ tag := 1, idname := "g_w", wgroup := 7, hidden := false, highlighted := false,
                selected := true, activeFlag := false, highlighted_part := 0,
                hasSelect := false, cursor := none, hasInvoke := false, hasHandler := false,
                opname := none, interaction_data := false }],
    widgetgroups := [{ gid := 7, poll := true, fresh := [], widgets := [1] }],
    draw_widgets := some [], highlighted_widget := none,
    activegroup := none, active_widget := none, selected_widgets := [1],
    freed := [], dataFreed := [], events := [] }

def exC3st : wmWidgetMap :=
  { store := [{ tag := 1, idname := "a_w", wgroup := 3, hidden := false, highlighted := false,
                selected := false, activeFlag := true, highlighted_part := 0,
                hasSelect := false, cursor := none, hasInvoke := true, hasHandler := true,
                opname := none, interaction_data := true }],
    widgetgroups := [{ gid := 3, poll := false, fresh := [], widgets := [1] }],
    draw_widgets := some [], highlighted_widget := none,
    activegroup := some 3, active_widget := some 1, selected_widgets := [],
    freed := [], dataFreed := [], events := [] }

def exC3wFresh : wmWidget :=
  { tag := 2, idname := "b_w", wgroup := 0, hidden := false, highlighted := false,
    selected := false, activeFlag := false, highlighted_part := 0,
    hasSelect := false, cursor := none, hasInvoke := false, hasHandler := false,
    opname := none, interaction_data := false }

def exC3wGroup : wmWidgetGroup :=
  { gid := 5, poll := true, fresh := [exC3wFresh], widgets := [] }

def exC3w : wmWidgetMap :=
  { store := [],
    widgetgroups := [exC3wGroup],
    draw_widgets := some [], highlighted_widget := none,
    activegroup := none, active_widget := none, selected_widgets := [],
    freed := [], dataFreed := [], events := [] }

def exC4stOld : wmWidget :=
  { tag := 1, idname := "g_w", wgroup := 7, hidden := false, highlighted := true,
    selected := true, activeFlag := false, highlighted_part := 3,
    hasSelect := false, cursor := none, hasInvoke := false, hasHandler := false,
    opname := none, interaction_data := true }

def exC4stFresh : wmWidget :=
  { tag := 2, idname := "g_w", wgroup := 0, hidden := false, highlighted := false,
    selected := false, activeFlag := false, highlighted_part := 0,
    hasSelect := false, cursor := none, hasInvoke := false, hasHandler := false,
    opname := none, interaction_data := false }

def exC4stGroup : wmWidgetGroup :=
  { gid := 7, poll := true, fresh := [exC4stFresh], widgets := [1] }

def exC4st : wmWidgetMap :=
  { store := [exC4stOld],
    widgetgroups := [exC4stGroup],
    draw_widgets := some [], highlighted_widget := some 1,
    activegroup := none, active_widget := none, selected_widgets := [1],
    freed := [], dataFreed := [], events := [] }

def exC4wOld : wmWidget :=
  { tag := 1, idname := "h_w", wgroup := 9, hidden := false, highlighted := true,
    selected := false, activeFlag := false, highlighted_part := 5,
    hasSelect := false, cursor := none, hasInvoke := false, hasHandler := false,
    opname := none, interaction_data := true }

def exC4wFresh : wmWidget :=
  { tag := 2, idname := "h_w", wgroup := 0, hidden := false, highlighted := false,
    selected := false, activeFlag := false, highlighted_part := 0,
    hasSelect := false, cursor := none, hasInvoke := false, hasHandler := false,
    opname := none, interaction_data := false }

def exC4wGroup : wmWidgetGroup :=
  { gid := 9, poll := true, fresh := [exC4wFresh], widgets := [1] }

def exC4w : wmWidgetMap :=
  { store := [exC4wOld],
    widgetgroups := [exC4wGroup],
    draw_widgets := some [], highlighted_widget := some 1,
    activegroup := none, active_widget := none, selected_widgets := [],
    freed := [], dataFreed := [], events := [] }

/-! ### Store and hash toolbox -/

lemma findW_cons (w : wmWidget) (s : List wmWidget) (t : Nat) :
    findW (w :: s) t = if w.tag = t then some w else findW s t := rfl

lemma mem_storeTags_iff (st : wmWidgetMap) (t : Nat) :
    t ∈ storeTags st ↔ ∃ w ∈ st.store, w.tag = t := by
  simp [storeTags]

lemma findW_isSome_iff (s : List wmWidget) (t : Nat) :
    (findW s t).isSome ↔ ∃ w ∈ s, w.tag = t := by
  induction s with
  | nil => simp [findW]
  | cons w s ih =>
    rw [findW_cons]
    by_cases h : w.tag = t
    · simp [h]
    · simp [h, ih]

lemma findW_eq_some (s : List wmWidget) (t : Nat) (w : wmWidget)
    (h : findW s t = some w) : w ∈ s ∧ w.tag = t := by
  induction s with
  | nil => simp [findW] at h
  | cons a s ih =>
    rw [findW_cons] at h
    by_cases h1 : a.tag = t
    · rw [if_pos h1] at h
      obtain rfl := Option.some.inj h
      exact ⟨List.mem_cons_self _ _, h1⟩
    · rw [if_neg h1] at h
      obtain ⟨hm, ht⟩ := ih h
      exact ⟨List.mem_cons_of_mem a hm, ht⟩

lemma findW_setW (s : List wmWidget) (t : Nat) (f : wmWidget → wmWidget)
    (hf : ∀ y, (f y).tag = y.tag) (x : Nat) :
    findW (setW s t f) x = (findW s x).map (fun w => if w.tag = t then f w else w) := by
  induction s with
  | nil => rfl
  | cons w s ih =>
    have hstep : setW (w :: s) t f = (if w.tag = t then f w else w) :: setW s t f := by
      simp [setW]
    rw [hstep, findW_cons, findW_cons]
    by_cases h1 : w.tag = t
    · by_cases h2 : w.tag = x
      · have htx : t = x := by omega
        simp [h1, h2, htx, hf w]
      · have htx : ¬ t = x := by omega
        simp [h1, h2, htx, hf w, ih]
    · by_cases h2 : w.tag = x
      · have htx : ¬ x = t := by omega
        simp [h1, h2, htx]
      · simp [h1, h2, ih]

lemma getW_setW_other (s : List wmWidget) (t : Nat) (f : wmWidget → wmWidget)
    (hf : ∀ y, (f y).tag = y.tag) (x : Nat) (hx : x ≠ t) :
    getW (setW s t f) x = getW s x := by
  rw [getW, findW_setW s t f hf x]
  cases h : findW s x with
  | none => simp [getW, h]
  | some w =>
    have htag : w.tag = x := (findW_eq_some s x w h).2
    have : ¬ w.tag = t := by omega
    simp [getW, h, this]

lemma findW_removeW (s : List wmWidget) (t x : Nat) (hxt : x ≠ t) :
    findW (removeW s t) x = findW s x := by
  induction s with
  | nil => rfl
  | cons w s ih =>
    by_cases h1 : w.tag = t
    · have h2 : ¬ w.tag = x := by omega
      have h3 : ¬ t = x := by omega
      simp [removeW, h1, findW_cons, h2, h3, ih]
    · by_cases h2 : w.tag = x
      · simp [removeW, h1, findW_cons, h2, hxt]
      · simp [removeW, h1, findW_cons, h2, ih]

lemma findW_append_left (s s' : List wmWidget) (x : Nat) (w : wmWidget)
    (h : findW s x = some w) : findW (s ++ s') x = some w := by
  induction s with
  | nil => simp [findW] at h
  | cons a s ih =>
    rw [findW_cons] at h
    rw [List.cons_append, findW_cons]
    by_cases h1 : a.tag = x
    · rwa [if_pos h1] at h ⊢
    · rw [if_neg h1] at h ⊢
      exact ih h

lemma findW_append_right (s s' : List wmWidget) (x : Nat)
    (h : findW s x = none) : findW (s ++ s') x = findW s' x := by
  induction s with
  | nil => rfl
  | cons a s ih =>
    rw [findW_cons] at h
    rw [List.cons_append, findW_cons]
    by_cases h1 : a.tag = x
    · rw [if_pos h1] at h; exact absurd h (by simp)
    · rw [if_neg h1] at h ⊢
      exact ih h

lemma findW_map_proj {β : Type} (proj : wmWidget → β) (s s' : List wmWidget)
    (h : s.map (fun w => (w.tag, proj w)) = s'.map (fun w => (w.tag, proj w))) (x : Nat) :
    (findW s x).map (fun w => (w.tag, proj w)) = (findW s' x).map (fun w => (w.tag, proj w)) := by
  induction s generalizing s' with
  | nil =>
    cases s' with
    | nil => rfl
    | cons b s' => simp at h
  | cons a s ih =>
    cases s' with
    | nil => simp at h
    | cons b s' =>
      simp only [List.map_cons, List.cons.injEq, Prod.mk.injEq] at h
      obtain ⟨⟨htag, hproj⟩, htail⟩ := h
      rw [findW_cons, findW_cons, htag]
      by_cases h1 : b.tag = x
      · simp [h1, htag, hproj]
      · simp [h1, ih s' htail]

lemma setW_map_proj {β : Type} (s : List wmWidget) (t : Nat) (f : wmWidget → wmWidget)
    (proj : wmWidget → β) (hf : ∀ y, proj (f y) = proj y) :
    (setW s t f).map proj = s.map proj := by
  unfold setW
  induction s with
  | nil => rfl
  | cons w s ih =>
    simp only [List.map_cons, ih]
    by_cases h1 : w.tag = t <;> simp [h1, hf]

lemma ghashLookup_cons (p : String × Nat) (t : List (String × Nat)) (k : String) :
    ghashLookup (p :: t) k = if p.1 = k then some p.2 else ghashLookup t k := rfl

lemma ghashLookup_append_single (h : List (String × Nat)) (k' k : String) (v : Nat) :
    ghashLookup (h ++ [(k', v)]) k =
      match ghashLookup h k with
      | some x => some x
      | none => if k' = k then some v else none := by
  induction h with
  | nil => simp [ghashLookup]
  | cons p t ih =>
    rw [List.cons_append, ghashLookup_cons, ghashLookup_cons]
    by_cases hp : p.1 = k <;> simp [hp, ih]

lemma ghashLookup_map_replace_ne (h : List (String × Nat)) (k' k : String) (v : Nat)
    (hk : k ≠ k') :
    ghashLookup (h.map (fun p => if p.1 = k' then (k', v) else p)) k = ghashLookup h k := by
  induction h with
  | nil => rfl
  | cons p t ih =>
    rw [List.map_cons, ghashLookup_cons, ghashLookup_cons]
    by_cases hp : p.1 = k'
    · have h1 : ¬ p.1 = k := by rw [hp]; exact fun hh => hk hh.symm
      have h2 : ¬ (k' : String) = k := fun hh => hk hh.symm
      simp only [if_pos hp, if_neg h1]
      simp only [h2, if_false, ih]
    · rw [if_neg hp]
      by_cases h1 : p.1 = k <;> simp [h1, ih]

lemma ghashLookup_map_replace_eq (h : List (String × Nat)) (k' : String) (v : Nat)
    (hany : ghashHasKey h k' = true) :
    ghashLookup (h.map (fun p => if p.1 = k' then (k', v) else p)) k' = some v := by
  induction h with
  | nil => simp [ghashHasKey] at hany
  | cons p t ih =>
    rw [List.map_cons, ghashLookup_cons]
    by_cases hp : p.1 = k'
    · simp [hp]
    · simp only [ghashHasKey, if_neg hp] at hany
      simp [hp, ih hany]

lemma ghashLookup_none_of_no_key (h : List (String × Nat)) (k : String)
    (hany : ghashHasKey h k = false) :
    ghashLookup h k = none := by
  induction h with
  | nil => rfl
  | cons p t ih =>
    rw [ghashLookup_cons]
    by_cases hp : p.1 = k
    · simp [ghashHasKey, hp] at hany
    · simp only [ghashHasKey, if_neg hp] at hany
      simp [hp, ih hany]

lemma ghashLookup_reinsert (h : List (String × Nat)) (k' k : String) (v : Nat) :
    ghashLookup (ghashReinsert h k' v) k = if k = k' then some v else ghashLookup h k := by
  unfold ghashReinsert
  by_cases hk : k = k'
  · subst hk
    cases hany : ghashHasKey h k with
    | true => simp [hany, ghashLookup_map_replace_eq h k v hany]
    | false =>
      simp only [hany, Bool.false_eq_true, if_false, if_pos rfl]
      rw [ghashLookup_append_single]
      simp [ghashLookup_none_of_no_key h k hany]
  · cases hany : ghashHasKey h k' with
    | true => simp [hany, ghashLookup_map_replace_ne h k' k v hk, hk]
    | false =>
      simp only [hany, Bool.false_eq_true, if_false, if_neg hk]
      rw [ghashLookup_append_single]
      have h2 : ¬ (k' : String) = k := fun hh => hk hh.symm
      cases hl : ghashLookup h k <;> simp [hl, h2]

lemma ghashReinsert_mem (h : List (String × Nat)) (k : String) (v : Nat)
    (p : String × Nat) (hp : p ∈ ghashReinsert h k v) :
    p = (k, v) ∨ p ∈ h := by
  unfold ghashReinsert at hp
  by_cases hany : ghashHasKey h k = true
  · rw [if_pos hany] at hp
    obtain ⟨q, hq, hqe⟩ := List.mem_map.mp hp
    by_cases h1 : q.1 = k
    · left; simp [h1] at hqe; exact hqe.symm
    · right; simp [h1] at hqe; rwa [← hqe]
  · rw [if_neg hany] at hp
    rcases List.mem_append.mp hp with h1 | h1
    · right; exact h1
    · left; simpa using h1

/-! ### Hit-resolution lemmas (claim C1) -/

lemma hitScan_no_sentinel (l : List SelectHit) :
    ∀ d v, v ≠ U32_MAX → (∀ h ∈ l, h.name ≠ U32_MAX) →
      hitScan l (d, v) = firstMinAcc l d v := by
  induction l with
  | nil => intro d v _ _; rfl
  | cons h rest ih =>
    intro d v hv hn
    have hname : h.name ≠ U32_MAX := hn h (List.mem_cons_self h rest)
    have hrest : ∀ x ∈ rest, x.name ≠ U32_MAX := fun x hx => hn x (List.mem_cons_of_mem h hx)
    by_cases hd : h.depthMin < d
    · have hc : ((d, v).2 = U32_MAX ∨ h.depthMin < (d, v).1) := Or.inr hd
      simp only [hitScan, firstMinAcc, if_pos hc, if_pos hd]
      exact ih _ _ hname hrest
    · have hc : ¬ ((d, v).2 = U32_MAX ∨ h.depthMin < (d, v).1) := by
        simp only []
        tauto
      simp only [hitScan, firstMinAcc, if_neg hc, if_neg hd]
      exact ih _ _ hv hrest

lemma minDepthFrom_cons (d : Nat) (h : SelectHit) (rest : List SelectHit) :
    minDepthFrom d (h :: rest) = minDepthFrom (min d h.depthMin) rest := rfl

lemma minDepthFrom_le (l : List SelectHit) : ∀ d, minDepthFrom d l ≤ d := by
  induction l with
  | nil => intro d; simp [minDepthFrom]
  | cons h rest ih =>
    intro d
    calc minDepthFrom d (h :: rest) = minDepthFrom (min d h.depthMin) rest :=
          minDepthFrom_cons d h rest
      _ ≤ min d h.depthMin := ih _
      _ ≤ d := min_le_left _ _

lemma minDepthFrom_le_mem (l : List SelectHit) : ∀ d, ∀ h ∈ l, minDepthFrom d l ≤ h.depthMin := by
  induction l with
  | nil => intro d h hm; simp at hm
  | cons x rest ih =>
    intro d h hm
    rcases List.mem_cons.mp hm with he | hm
    · subst he
      calc minDepthFrom d (h :: rest) = minDepthFrom (min d h.depthMin) rest :=
            minDepthFrom_cons d h rest
        _ ≤ min d h.depthMin := minDepthFrom_le _ _
        _ ≤ h.depthMin := min_le_right _ _
    · rw [minDepthFrom_cons]
      exact ih _ h hm

lemma minDepthFrom_attained (l : List SelectHit) :
    ∀ d, minDepthFrom d l = d ∨ ∃ h ∈ l, h.depthMin = minDepthFrom d l := by
  induction l with
  | nil => intro d; left; rfl
  | cons x rest ih =>
    intro d
    rw [minDepthFrom_cons]
    rcases ih (min d x.depthMin) with heq | ⟨h, hm, hd⟩
    · rw [heq]
      rcases le_or_lt d x.depthMin with hle | hlt
      · left; exact min_eq_left hle
      · right
        exact ⟨x, List.mem_cons_self x rest, (min_eq_right (le_of_lt hlt)).symm⟩
    · right; exact ⟨h, List.mem_cons_of_mem x hm, hd⟩

lemma minDepth_le_mem (l : List SelectHit) (h : SelectHit) (hm : h ∈ l) :
    minDepth l ≤ h.depthMin := by
  cases l with
  | nil => simp at hm
  | cons x rest =>
    rcases List.mem_cons.mp hm with he | hm
    · subst he
      exact minDepthFrom_le rest h.depthMin
    · exact minDepthFrom_le_mem rest x.depthMin h hm

lemma minDepth_attained (l : List SelectHit) (hne : l ≠ []) :
    ∃ h ∈ l, h.depthMin = minDepth l := by
  cases l with
  | nil => exact absurd rfl hne
  | cons x rest =>
    rcases minDepthFrom_attained rest x.depthMin with heq | ⟨h, hm, hd⟩
    · exact ⟨x, List.mem_cons_self x rest, by simp [minDepth, heq]⟩
    · exact ⟨h, List.mem_cons_of_mem x hm, by simp [minDepth, ← hd]⟩

lemma findHitAtDepth_eq_some (l : List SelectHit) (m : Nat) :
    ∀ h, findHitAtDepth l m = some h →
      h ∈ l ∧ h.depthMin = m ∧ ∃ l1 l2, l = l1 ++ h :: l2 ∧ ∀ x ∈ l1, x.depthMin ≠ m := by
  induction l with
  | nil => intro h hf; simp [findHitAtDepth] at hf
  | cons x rest ih =>
    intro h hf
    by_cases hx : x.depthMin = m
    · simp only [findHitAtDepth, if_pos hx] at hf
      obtain rfl := Option.some.inj hf
      exact ⟨List.mem_cons_self _ _, hx, [], rest, rfl, by simp⟩
    · simp only [findHitAtDepth, if_neg hx] at hf
      obtain ⟨hm, hd, l1, l2, hsplit, hfirst⟩ := ih h hf
      refine ⟨List.mem_cons_of_mem x hm, hd, x :: l1, l2, by simp [hsplit], ?_⟩
      intro y hy
      rcases List.mem_cons.mp hy with he | hy
      · subst he; exact hx
      · exact hfirst y hy

lemma findHitAtDepth_isSome (l : List SelectHit) (m : Nat)
    (hex : ∃ h ∈ l, h.depthMin = m) : ∃ h, findHitAtDepth l m = some h := by
  induction l with
  | nil => simp at hex
  | cons x rest ih =>
    by_cases hx : x.depthMin = m
    · exact ⟨x, by simp [findHitAtDepth, hx]⟩
    · obtain ⟨h, hm, hd⟩ := hex
      rcases List.mem_cons.mp hm with he | hm
      · subst he; exact absurd hd hx
      · obtain ⟨h', hf⟩ := ih ⟨h, hm, hd⟩
        exact ⟨h', by simp [findHitAtDepth, hx, hf]⟩

lemma firstMinHit_spec (l : List SelectHit) (hne : l ≠ []) :
    firstMinHit l ∈ l ∧ (firstMinHit l).depthMin = minDepth l ∧
    ∃ l1 l2, l = l1 ++ firstMinHit l :: l2 ∧ ∀ x ∈ l1, x.depthMin ≠ minDepth l := by
  obtain ⟨h, hf⟩ := findHitAtDepth_isSome l (minDepth l) (minDepth_attained l hne)
  have hspec := findHitAtDepth_eq_some l (minDepth l) h hf
  have he : firstMinHit l = h := by simp [firstMinHit, hf]
  rw [he]
  exact hspec

lemma firstMinAcc_spec (l : List SelectHit) :
    ∀ d v,
      (minDepthFrom d l = d → firstMinAcc l d v = (d, v)) ∧
      (minDepthFrom d l < d →
        firstMinAcc l d v =
          (minDepthFrom d l, ((findHitAtDepth l (minDepthFrom d l)).getD default).name)) := by
  induction l with
  | nil =>
    intro d v
    refine ⟨fun _ => rfl, fun hlt => ?_⟩
    simp [minDepthFrom] at hlt
  | cons h rest ih =>
    intro d v
    rw [minDepthFrom_cons]
    by_cases hd : h.depthMin < d
    · have hmin : min d h.depthMin = h.depthMin := min_eq_right (le_of_lt hd)
      rw [hmin]
      have hle := minDepthFrom_le rest h.depthMin
      constructor
      · intro heq
        omega
      · intro _
        simp only [firstMinAcc, if_pos hd]
        rcases lt_or_eq_of_le hle with hlt | heq
        · rw [(ih h.depthMin h.name).2 hlt]
          have hne : ¬ h.depthMin = minDepthFrom h.depthMin rest := by omega
          simp [findHitAtDepth, hne]
        · rw [(ih h.depthMin h.name).1 heq, heq]
          simp [findHitAtDepth]
    · have hmin : min d h.depthMin = d := min_eq_left (by omega)
      rw [hmin]
      constructor
      · intro heq
        simp only [firstMinAcc, if_neg hd]
        exact (ih d v).1 heq
      · intro hlt
        simp only [firstMinAcc, if_neg hd]
        rw [(ih d v).2 hlt]
        have hne : ¬ h.depthMin = minDepthFrom d rest := by
          have := minDepthFrom_le rest d
          omega
        simp [findHitAtDepth, hne]

lemma hitScan_eq (l : List SelectHit) (hne : l ≠ [])
    (hn : ∀ h ∈ l, h.name ≠ U32_MAX) :
    hitScan l (0, U32_MAX) = (minDepth l, (firstMinHit l).name) := by
  cases l with
  | nil => exact absurd rfl hne
  | cons h rest =>
    have hstep : hitScan (h :: rest) (0, U32_MAX) = hitScan rest (h.depthMin, h.name) := by
      simp [hitScan]
    rw [hstep,
      hitScan_no_sentinel rest h.depthMin h.name (hn h (List.mem_cons_self h rest))
        (fun x hx => hn x (List.mem_cons_of_mem h hx))]
    have hle := minDepthFrom_le rest h.depthMin
    have hmd : minDepth (h :: rest) = minDepthFrom h.depthMin rest := rfl
    rcases lt_or_eq_of_le hle with hlt | heq
    · rw [(firstMinAcc_spec rest h.depthMin h.name).2 hlt, hmd]
      have hne2 : ¬ h.depthMin = minDepthFrom h.depthMin rest := by omega
      simp [firstMinHit, findHitAtDepth, hmd, hne2]
    · rw [(firstMinAcc_spec rest h.depthMin h.name).1 heq, hmd, heq]
      simp [firstMinHit, findHitAtDepth, hmd, heq]

/-- C1 (amended): for every hit buffer with at least two records, none of
whose ids equals `2 ^ 32 - 1` (that value collides with the loop's
`(GLuint)-1` sentinel), the 3D picking resolution returns exactly the id
of the first record attaining the minimum depth.  Hence the winner always
has minimum depth whatever the record order, and ties between records of
exactly equal depth go to the record seen first in the scan; the minimum
depth itself is invariant under reordering of the records. -/
theorem C1_pick_min_depth (l : List SelectHit) (hlen : 2 ≤ l.length)
    (hn : ∀ h ∈ l, h.name < U32_MAX) :
    wm_widget_find_highlighted_3D_intern l = ofU32 (firstMinHit l).name ∧
    firstMinHit l ∈ l ∧
    (firstMinHit l).depthMin = minDepth l ∧
    (∀ h ∈ l, minDepth l ≤ h.depthMin) ∧
    (∃ l1 l2, l = l1 ++ firstMinHit l :: l2 ∧ ∀ x ∈ l1, x.depthMin ≠ minDepth l) ∧
    (∀ l' : List SelectHit, l.Perm l' → minDepth l' = minDepth l) := by
  have hne : l ≠ [] := by
    intro hc; rw [hc] at hlen; simp at hlen
  have hn' : ∀ h ∈ l, h.name ≠ U32_MAX := fun h hm => Nat.ne_of_lt (hn h hm)
  have hfm := firstMinHit_spec l hne
  have hscan := hitScan_eq l hne hn'
  refine ⟨?_, hfm.1, hfm.2.1, fun h hm => minDepth_le_mem l h hm, hfm.2.2, ?_⟩
  · unfold wm_widget_find_highlighted_3D_intern
    have h1 : ¬ l.length = 1 := by omega
    have h2 : 1 < l.length := by omega
    rw [if_neg h1, if_pos h2, hscan]
  · intro l' hperm
    have hne' : l' ≠ [] := by
      intro hc
      rw [hc] at hperm
      exact hne (List.Perm.eq_nil hperm)
    obtain ⟨h1, hm1, hd1⟩ := minDepth_attained l hne
    obtain ⟨h2, hm2, hd2⟩ := minDepth_attained l' hne'
    have hm1' : h1 ∈ l' := hperm.mem_iff.mp hm1
    have hm2' : h2 ∈ l := hperm.mem_iff.mpr hm2
    have hle1 : minDepth l' ≤ minDepth l := hd1 ▸ minDepth_le_mem l' h1 hm1'
    have hle2 : minDepth l ≤ minDepth l' := hd2 ▸ minDepth_le_mem l h2 hm2'
    omega

/-- Witness for `C1_pick_min_depth` at a concrete buffer: the loop
returns id 9, the first of the two records tied at depth 2. -/
theorem C1_pick_min_depth_witness :
    wm_widget_find_highlighted_3D_intern exC1buf = ofU32 (firstMinHit exC1buf).name ∧
    firstMinHit exC1buf ∈ exC1buf ∧
    (firstMinHit exC1buf).depthMin = minDepth exC1buf ∧
    (∀ h ∈ exC1buf, minDepth exC1buf ≤ h.depthMin) ∧
    (∃ l1 l2, exC1buf = l1 ++ firstMinHit exC1buf :: l2 ∧
      ∀ x ∈ l1, x.depthMin ≠ minDepth exC1buf) ∧
    (∀ l' : List SelectHit, exC1buf.Perm l' → minDepth l' = minDepth exC1buf) :=
  C1_pick_min_depth exC1buf (by decide) (by decide)

/-- C1 counterexample: an id equal to `(GLuint)-1` re-arms the sentinel
test `minval == -1`, so the scan moves on and returns id 7 of depth 5
even though the minimum depth 0 belongs to the first record — the claim's
"returns the id of the record with the minimum depth" fails on this
buffer. -/
theorem C1_sentinel_cex :
    2 ≤ exC1sentinel.length ∧
    wm_widget_find_highlighted_3D_intern exC1sentinel = 7 ∧
    minDepth exC1sentinel = 0 ∧
    (∀ h ∈ exC1sentinel, h.depthMin = 0 → h.name = 4294967295) ∧
    (7 : Int) ≠ ofU32 4294967295 := by decide

/-! ### Claim C5: the two-pass pick rectangle -/

/-- C5 counterexample: the inner (refinement) pick rectangle of the
source extends `0.2f * hotspot = 0.2 * 14 = 2.8` pixels from the cursor —
exactly twice the claimed "about 1.4 px"; even allowing half a pixel of
slack around 1.4 the code's radius does not match, while the claimed
outer radius of 7 px is exact. -/
theorem C5_inner_radius_cex :
    (1 / 5 : ℚ) * WIDGET_HOTSPOT = 14 / 5 ∧
    ¬ |(1 / 5 : ℚ) * WIDGET_HOTSPOT - 7 / 5| ≤ 1 / 2 ∧
    (1 / 5 : ℚ) * WIDGET_HOTSPOT = 2 * (7 / 5) ∧
    (1 / 2 : ℚ) * WIDGET_HOTSPOT = 7 := by
  refine ⟨by norm_num [WIDGET_HOTSPOT], ?_, by norm_num [WIDGET_HOTSPOT],
    by norm_num [WIDGET_HOTSPOT]⟩
  rw [show (1 / 5 : ℚ) * WIDGET_HOTSPOT - 7 / 5 = 7 / 5 by norm_num [WIDGET_HOTSPOT]]
  rw [abs_of_nonneg (by norm_num : (0 : ℚ) ≤ 7 / 5)]
  norm_num

/-- C5 (amended): the discoverability pass uses a pick rectangle
extending 7 px (`0.5f * 14.0f`) from the cursor; the refinement pass,
run only when the first pass produced a hit, uses a rectangle extending
2.8 px (`0.2f * 14.0f`, not ~1.4 px); the refined result is preferred
whenever it is non-empty. -/
theorem C5_two_pass_pick (pick : ℚ → Int) :
    ((1 / 2 : ℚ) * WIDGET_HOTSPOT = 7 ∧ (1 / 5 : ℚ) * WIDGET_HOTSPOT = 14 / 5) ∧
    (pick 7 = -1 → wm_widget_find_highlighted_3D pick = none) ∧
    (pick 7 ≠ -1 → pick (14 / 5) ≠ -1 →
      wm_widget_find_highlighted_3D pick = some (decodeSelectId (pick (14 / 5)))) ∧
    (pick 7 ≠ -1 → pick (14 / 5) = -1 →
      wm_widget_find_highlighted_3D pick = some (decodeSelectId (pick 7))) := by
  have h1 : (1 / 2 : ℚ) * WIDGET_HOTSPOT = 7 := by norm_num [WIDGET_HOTSPOT]
  have h2 : (1 / 5 : ℚ) * WIDGET_HOTSPOT = 14 / 5 := by norm_num [WIDGET_HOTSPOT]
  refine ⟨⟨h1, h2⟩, ?_, ?_, ?_⟩
  · intro h
    unfold wm_widget_find_highlighted_3D
    rw [h1, h2]
    simp [h]
  · intro ha hb
    unfold wm_widget_find_highlighted_3D
    rw [h1, h2]
    simp [ha, hb]
  · intro ha hb
    unfold wm_widget_find_highlighted_3D
    rw [h1, h2]
    simp [ha, hb]

/-- Witness for `C5_two_pass_pick` with a pick oracle hitting id
`0x205 = 517` on the outer pass and id `0x103 = 259` on the inner pass:
the refined result is decoded. -/
theorem C5_two_pass_pick_witness :
    wm_widget_find_highlighted_3D (fun q => if q = 7 then 517 else 259) =
      some (decodeSelectId 259) := by
  have h := (C5_two_pass_pick (fun q => if q = 7 then 517 else 259)).2.2.1
    (by norm_num) (by norm_num)
  rw [if_neg (by norm_num : ¬ (14 / 5 : ℚ) = 7)] at h
  exact h

/-! ### Claims C6 and C7: activation through a bound operator -/

/-- C6 (amended): activating an operator-bound widget whose operator type
is found dispatches the operator and sets the active slot to the widget
unconditionally — not only when the widget exposes its own invoke/handler
pair; that pair only decides whether the `WM_WIDGET_ACTIVE` flag is set
and the widget's own invoke runs first.  (Stated for a dispatcher that
leaves the widget-map state unchanged, the normal case of the operator
starting a modal interaction.) -/
theorem C6_active_set_unconditionally (st : wmWidgetMap) (t : Nat) (w : wmWidget)
    (op : String) (otFound : String → Bool)
    (hfind : findW st.store t = some w) (hop : w.opname = some op)
    (hot : otFound op = true) :
    (wm_widgetmap_set_active_widget otFound id st (some t)).active_widget = some t ∧
    (wm_widgetmap_set_active_widget otFound id st (some t)).events =
      (if w.hasInvoke && w.hasHandler then st.events ++ [wmEffect.invokeCb t]
       else st.events) ++ [wmEffect.dispatchOp op] ∧
    ((w.hasInvoke && w.hasHandler) = false →
      (wm_widgetmap_set_active_widget otFound id st (some t)).store = st.store) := by
  have hw : getW st.store t = w := by simp [getW, hfind]
  simp only [wm_widgetmap_set_active_widget, hw, hop, hot, if_true, id]
  unfold wm_widgetmap_active_pre
  rw [hw]
  cases hih : (w.hasInvoke && w.hasHandler) <;> simp [hih]

/-- C6 counterexample: `wm_widgetmap_set_active_widget` sets
`wmap_context.active_widget = widget` before calling the dispatcher and
outside the `invoke && handler` test (wm_widgets.c:1185), so a widget
with a bound command but no invoke/handler pair still ends up in the
active slot — refuting "the active slot is not set" for such widgets. -/
theorem C6_active_slot_cex :
    (getW exC6st.store 1).hasInvoke = false ∧
    (getW exC6st.store 1).hasHandler = false ∧
    (getW exC6st.store 1).opname = some "tr" ∧
    (wm_widgetmap_set_active_widget (fun o => o == "tr") id exC6st (some 1)).active_widget =
      some 1 := by decide

/-- Witness for `C6_active_set_unconditionally` at the concrete state of
a widget with a bound operator and no invoke/handler. -/
theorem C6_active_set_witness :
    (wm_widgetmap_set_active_widget (fun o => o == "tr") id exC6st (some 1)).active_widget =
      some 1 ∧
    (wm_widgetmap_set_active_widget (fun o => o == "tr") id exC6st (some 1)).events =
      (if (getW exC6st.store 1).hasInvoke && (getW exC6st.store 1).hasHandler then
        exC6st.events ++ [wmEffect.invokeCb 1] else exC6st.events) ++ [wmEffect.dispatchOp "tr"] ∧
    (((getW exC6st.store 1).hasInvoke && (getW exC6st.store 1).hasHandler) = false →
      (wm_widgetmap_set_active_widget (fun o => o == "tr") id exC6st (some 1)).store =
        exC6st.store) := by
  have h := C6_active_set_unconditionally exC6st 1 (getW exC6st.store 1) "tr"
    (fun o => o == "tr") (by decide) (by decide) (by decide)
  exact h

/-- C7 (confirmed): when activating an operator-bound widget fails to
yield a running command — the operator type is not found, or the
dispatcher returns with the active slot cleared — the map ends with a
null active slot, the widget's `WM_WIDGET_ACTIVE` flag clear and its
interaction data freed (given the widget started inactive with no
interaction data, as at any fresh activation). -/
theorem C7_failed_activation_rollback (st : wmWidgetMap) (t : Nat) (w : wmWidget)
    (op : String) (otFound : String → Bool) (dispatch : wmWidgetMap → wmWidgetMap)
    (hfind : findW st.store t = some w) (hop : w.opname = some op)
    (hflag : w.activeFlag = false) (hidata : w.interaction_data = false)
    (hfail : otFound op = false ∨
      (otFound op = true ∧ (dispatch (wm_widgetmap_active_pre st t op)).active_widget = none)) :
    (wm_widgetmap_set_active_widget otFound dispatch st (some t)).active_widget = none ∧
    (getW (wm_widgetmap_set_active_widget otFound dispatch st (some t)).store t).activeFlag
      = false ∧
    (getW (wm_widgetmap_set_active_widget otFound dispatch st (some t)).store t).interaction_data
      = false := by
  have hw : getW st.store t = w := by simp [getW, hfind]
  simp only [wm_widgetmap_set_active_widget, hw, hop]
  rcases hfail with hnf | ⟨hf, hclear⟩
  · refine ⟨?_, ?_, ?_⟩ <;> simp [hnf, hw, hflag, hidata]
  · simp only [hf, if_true, hclear, if_pos rfl]
    refine ⟨trivial, ?_, ?_⟩
    all_goals {
      have hrw := findW_setW (dispatch (wm_widgetmap_active_pre st t op)).store t
        (fun x => { x with activeFlag := false, interaction_data := false }) (fun y => rfl) t
      rw [getW, hrw]
      cases hfd : findW (dispatch (wm_widgetmap_active_pre st t op)).store t with
      | none => rfl
      | some w' =>
        have htag : w'.tag = t := (findW_eq_some _ _ _ hfd).2
        simp [hfd, htag]
    }

/-- Witness for `C7_failed_activation_rollback`: concrete activation in
`exC6st`-like state where the dispatcher clears the active slot. -/
theorem C7_failed_activation_witness :
    (wm_widgetmap_set_active_widget (fun o => o == "tr")
      (fun s => { s with active_widget := none }) exC6st (some 1)).active_widget = none ∧
    (getW (wm_widgetmap_set_active_widget (fun o => o == "tr")
      (fun s => { s with active_widget := none }) exC6st (some 1)).store 1).activeFlag = false ∧
    (getW (wm_widgetmap_set_active_widget (fun o => o == "tr")
      (fun s => { s with active_widget := none }) exC6st (some 1)).store 1).interaction_data
      = false :=
  C7_failed_activation_rollback exC6st 1 (getW exC6st.store 1) "tr" (fun o => o == "tr")
    (fun s => { s with active_widget := none }) (by decide) (by decide) (by decide) (by decide)
    (Or.inr ⟨by decide, by decide⟩)

/-! ### Claim C9: re-highlighting the highlighted widget -/

/-- C9 (confirmed): calling `wm_widgetmap_set_highlighted_widget` with
the widget that is already the current highlighted widget and with its
current sub-part code falls under the negated C guard and is a complete
no-op — the widget map (flags, highlighted slot, sub-part code, active
group) is returned unchanged and no cursor change or redraw tag is
emitted (the event trace is unchanged), so the operation is idempotent. -/
theorem C9_rehighlight_noop (st : wmWidgetMap) (t part : Nat) (hasC : Bool)
    (hcur : st.highlighted_widget = some t)
    (hpart : part = (getW st.store t).highlighted_part) :
    wm_widgetmap_set_highlighted_widget st hasC (some t) part = st := by
  unfold wm_widgetmap_set_highlighted_widget
  rw [if_pos]
  exact ⟨hcur.symm, hpart⟩

/-- Witness for `C9_rehighlight_noop` at a concrete state. -/
theorem C9_rehighlight_noop_witness :
    wm_widgetmap_set_highlighted_widget exC9st true (some 1) 4 = exC9st :=
  C9_rehighlight_noop exC9st 1 4 true rfl (by decide)

/-! ### Selection lemmas (claims C8 and C10) -/

lemma getW_proj_eq {β : Type} (proj : wmWidget → β) (s s' : List wmWidget)
    (h : s.map (fun w => (w.tag, proj w)) = s'.map (fun w => (w.tag, proj w))) (x : Nat) :
    proj (getW s x) = proj (getW s' x) := by
  have hf := findW_map_proj proj s s' h x
  cases h1 : findW s x with
  | none =>
    cases h2 : findW s' x with
    | none => rw [getW, getW, h1, h2]
    | some w' => rw [h1, h2] at hf; exact absurd hf (by simp)
  | some w =>
    cases h2 : findW s' x with
    | none => rw [h1, h2] at hf; exact absurd hf (by simp)
    | some w' =>
      rw [h1, h2] at hf
      simp only [Option.map_some', Option.some.injEq, Prod.mk.injEq] at hf
      simp [getW, h1, h2, hf.2]

lemma addCursorEvent_frame (st : wmWidgetMap) (t : Nat) :
    (addCursorEvent st t).store = st.store ∧
    (addCursorEvent st t).selected_widgets = st.selected_widgets ∧
    (addCursorEvent st t).highlighted_widget = st.highlighted_widget ∧
    (addCursorEvent st t).activegroup = st.activegroup ∧
    (addCursorEvent st t).active_widget = st.active_widget ∧
    (addCursorEvent st t).freed = st.freed ∧
    (addCursorEvent st t).dataFreed = st.dataFreed ∧
    (addCursorEvent st t).draw_widgets = st.draw_widgets ∧
    (addCursorEvent st t).widgetgroups = st.widgetgroups := by
  unfold addCursorEvent
  cases (getW st.store t).cursor <;> exact ⟨rfl, rfl, rfl, rfl, rfl, rfl, rfl, rfl, rfl⟩

lemma set_highlighted_store_proj {β : Type} (proj : wmWidget → β)
    (hp : ∀ (y : wmWidget) (b : Bool) (n : Nat),
      proj { y with highlighted := b, highlighted_part := n } = proj y)
    (st : wmWidgetMap) (hasC : Bool) (w : Option Nat) (part : Nat) :
    (wm_widgetmap_set_highlighted_widget st hasC w part).store.map (fun x => (x.tag, proj x)) =
      st.store.map (fun x => (x.tag, proj x)) ∧
    (wm_widgetmap_set_highlighted_widget st hasC w part).selected_widgets =
      st.selected_widgets ∧
    (wm_widgetmap_set_highlighted_widget st hasC w part).active_widget = st.active_widget := by
  have hp1 : ∀ (s : List wmWidget) (h : Nat),
      (setW s h (fun x => { x with highlighted := false, highlighted_part := 0 })).map
        (fun x => (x.tag, proj x)) = s.map (fun x => (x.tag, proj x)) :=
    fun s h => setW_map_proj s h _ _ (fun y => by simp [hp y false 0])
  have hp2 : ∀ (s : List wmWidget) (u : Nat),
      (setW s u (fun x => { x with highlighted := true, highlighted_part := part })).map
        (fun x => (x.tag, proj x)) = s.map (fun x => (x.tag, proj x)) :=
    fun s u => setW_map_proj s u _ _ (fun y => by simp [hp y true part])
  unfold wm_widgetmap_set_highlighted_widget
  split
  · exact ⟨rfl, rfl, rfl⟩
  · refine ⟨?_, ?_, ?_⟩ <;>
    · cases hhl : st.highlighted_widget <;> cases w <;> cases hasC <;>
        simp [addCursorEvent_frame, hp1, hp2]

lemma select_result (st : wmWidgetMap) (t : Nat)
    (hns : (getW st.store t).selected = false) :
    (wm_widget_select st (some t)).selected_widgets = st.selected_widgets ++ [t] ∧
    (wm_widget_select st (some t)).store.map (fun x => (x.tag, x.idname)) =
      st.store.map (fun x => (x.tag, x.idname)) ∧
    (wm_widget_select st (some t)).store.map (fun x => (x.tag, x.selected)) =
      (setW st.store t (fun x => { x with selected := true })).map
        (fun x => (x.tag, x.selected)) := by
  have hguard : ¬ ((getW st.store t).selected = true) := by simp [hns]
  simp only [wm_widget_select, if_neg hguard]
  have hid := set_highlighted_store_proj (fun x => x.idname) (fun y b n => rfl)
  have hsel := set_highlighted_store_proj (fun x => x.selected) (fun y b n => rfl)
  refine ⟨?_, ?_, ?_⟩
  · -- the selection array is only touched by the append
    split <;> simp [hid]
  · -- idnames: the flag write and the re-highlight keep (tag, idname)
    have hw : ∀ (s : List wmWidget),
        (setW s t (fun x => { x with selected := true })).map (fun x => (x.tag, x.idname)) =
          s.map (fun x => (x.tag, x.idname)) :=
      fun s => setW_map_proj s t _ _ (fun y => rfl)
    split <;> simp [hid, hw]
  · split <;> simp [hsel]

/-- C10 (confirmed): `wm_widget_select` with a NULL widget or an
already-selected widget returns the widget map unchanged (no array
growth, no flag change, no callback or redraw event), and on any
well-tagged state it preserves the selection invariant — the selected
array stays duplicate-free and contains a widget exactly when its
`WM_WIDGET_SELECTED` flag is set. -/
theorem C10_select_noop_invariant :
    (∀ st : wmWidgetMap, wm_widget_select st none = st) ∧
    (∀ (st : wmWidgetMap) (t : Nat), (getW st.store t).selected = true →
      wm_widget_select st (some t) = st) ∧
    (∀ (st : wmWidgetMap) (t : Nat), (storeTags st).Nodup → t ∈ storeTags st →
      SelInvariant st → SelInvariant (wm_widget_select st (some t))) := by
  refine ⟨fun st => rfl, fun st t hsel => ?_, fun st t hnd hmem hinv => ?_⟩
  · simp [wm_widget_select, hsel]
  · obtain ⟨hndsel, hselmem, hiff⟩ := hinv
    by_cases hsel : (getW st.store t).selected = true
    · have he : wm_widget_select st (some t) = st := by simp [wm_widget_select, hsel]
      rw [he]
      exact ⟨hndsel, hselmem, hiff⟩
    · have hns : (getW st.store t).selected = false := by
        revert hsel; cases (getW st.store t).selected <;> simp
      obtain ⟨harr, _hid, hstore⟩ := select_result st t hns
      -- the widget the tag refers to
      obtain ⟨wt, hwtmem, hwttag⟩ := (mem_storeTags_iff st t).mp hmem
      have hfind : ∃ w', findW st.store t = some w' := by
        have := (findW_isSome_iff st.store t).mpr ⟨wt, hwtmem, hwttag⟩
        cases h : findW st.store t
        · rw [h] at this; simp at this
        · exact ⟨_, rfl⟩
      obtain ⟨w', hw'⟩ := hfind
      have hw'tag : w'.tag = t := (findW_eq_some _ _ _ hw').2
      have hw'sel : w'.selected = false := by
        have : getW st.store t = w' := by simp [getW, hw']
        rw [← this]; exact hns
      have htnot : t ∉ st.selected_widgets := by
        intro hc
        have := (hiff w' (findW_eq_some _ _ _ hw').1).mpr (hw'tag ▸ hc)
        rw [hw'sel] at this; exact absurd this (by simp)
      have htags : storeTags (wm_widget_select st (some t)) = storeTags st := by
        have h1 := congrArg (List.map Prod.fst) hstore
        rw [List.map_map, List.map_map] at h1
        have h2 : (setW st.store t (fun x => { x with selected := true })).map
            (fun x => x.tag) = st.store.map (fun x => x.tag) :=
          setW_map_proj st.store t _ _ (fun y => rfl)
        exact h1.trans h2
      refine ⟨?_, ?_, ?_⟩
      · rw [harr]
        refine List.nodup_append.mpr ⟨hndsel, List.nodup_singleton t, ?_⟩
        intro u hu hc
        simp at hc
        subst hc
        exact htnot hu
      · intro u hu
        rw [harr] at hu
        rw [htags]
        rcases List.mem_append.mp hu with h1 | h1
        · exact hselmem u h1
        · simp at h1; subst h1; exact hmem
      · intro w hw
        have hmem2 : (w.tag, w.selected) ∈
            (wm_widget_select st (some t)).store.map (fun x => (x.tag, x.selected)) :=
          List.mem_map.mpr ⟨w, hw, rfl⟩
        rw [hstore] at hmem2
        unfold setW at hmem2
        rw [List.map_map] at hmem2
        obtain ⟨y, hy, hyeq⟩ := List.mem_map.mp hmem2
        rw [harr]
        by_cases hyt : y.tag = t
        · simp only [Function.comp, hyt, if_pos] at hyeq
          have h1 : w.tag = t := by
            have := congrArg Prod.fst hyeq
            simpa [hyt] using this.symm
          have h2 : w.selected = true := by
            have := congrArg Prod.snd hyeq
            simpa using this.symm
          simp [h1, h2]
        · simp only [Function.comp, hyt, if_neg, if_false] at hyeq
          have h1 : w.tag = y.tag := by
            have := congrArg Prod.fst hyeq
            simpa using this.symm
          have h2 : w.selected = y.selected := by
            have := congrArg Prod.snd hyeq
            simpa using this.symm
          rw [h1, h2, List.mem_append]
          constructor
          · intro hs
            exact Or.inl ((hiff y hy).mp hs)
          · intro hs
            rcases hs with hs | hs
            · exact (hiff y hy).mpr hs
            · simp at hs; exact absurd hs hyt

/-- Witness for `C10_select_noop_invariant`: selecting NULL and the
already-selected widget 1 are no-ops on a concrete state; selecting the
unselected widget 2 preserves the selection invariant. -/
theorem C10_select_noop_invariant_witness :
    wm_widget_select exC10st none = exC10st ∧
    wm_widget_select exC10st (some 1) = exC10st ∧
    SelInvariant (wm_widget_select exC10st (some 2)) :=
  ⟨C10_select_noop_invariant.1 exC10st,
   C10_select_noop_invariant.2.1 exC10st 1 (by decide),
   C10_select_noop_invariant.2.2 exC10st 2 (by decide) (by decide) (by decide)⟩

lemma selFindIdx_append (st : wmWidgetMap) (name : String) (l : List Nat) (t : Nat)
    (hl : ∀ x ∈ l, (getW st.store x).idname ≠ name)
    (ht : (getW st.store t).idname = name) :
    selFindIdx st name (l ++ [t]) = some l.length := by
  induction l with
  | nil => simp [selFindIdx, ht]
  | cons x rest ih =>
    have hx := hl x (List.mem_cons_self x rest)
    rw [List.cons_append]
    simp only [selFindIdx, if_neg hx,
      ih (fun y hy => hl y (List.mem_cons_of_mem x hy))]
    rfl

lemma eraseIdx_append_last {α : Type} (l : List α) (t : α) :
    (l ++ [t]).eraseIdx l.length = l := by
  induction l with
  | nil => rfl
  | cons x rest ih => simp [List.eraseIdx, ih]

/-- C8 (confirmed): for a live widget that is not currently selected,
`wm_widget_select` followed by `wm_widget_deselect` on the same widget
restores the selection state to the pre-select baseline — the selected
array is exactly the original one (same count, membership and order) and
the widget's selected flag is clear.  (The idname-disjointness hypothesis
is the widget map's idname-uniqueness invariant: `widget_compare` matches
by idname, so the deselect scan must not hit another selected widget of
the same name.) -/
theorem C8_select_deselect_roundtrip (st : wmWidgetMap) (t : Nat) (w : wmWidget)
    (hfind : findW st.store t = some w)
    (hnsel : w.selected = false)
    (hname : ∀ u ∈ st.selected_widgets, (getW st.store u).idname ≠ w.idname) :
    (wm_widget_deselect (wm_widget_select st (some t)) t).selected_widgets =
      st.selected_widgets ∧
    (getW (wm_widget_deselect (wm_widget_select st (some t)) t).store t).selected = false := by
  have hw : getW st.store t = w := by simp [getW, hfind]
  have hns : (getW st.store t).selected = false := by rw [hw]; exact hnsel
  obtain ⟨harr, hid, hselp⟩ := select_result st t hns
  have hidt : (getW (wm_widget_select st (some t)).store t).idname = w.idname := by
    have h := getW_proj_eq (fun x => x.idname) _ _ hid t
    rw [h, hw]
  have hidu : ∀ u ∈ st.selected_widgets,
      (getW (wm_widget_select st (some t)).store u).idname ≠ w.idname := by
    intro u hu
    have h := getW_proj_eq (fun x => x.idname) _ _ hid u
    rw [h]
    exact hname u hu
  have hfi : selFindIdx (wm_widget_select st (some t)) w.idname
      (st.selected_widgets ++ [t]) = some st.selected_widgets.length :=
    selFindIdx_append _ w.idname _ t hidu hidt
  constructor
  · unfold wm_widget_deselect
    rw [hidt]
    simp only [harr, hfi]
    exact eraseIdx_append_last st.selected_widgets t
  · show (getW (setW (wm_widget_select st (some t)).store t
        (fun x => { x with selected := false })) t).selected = false
    have hrw := findW_setW (wm_widget_select st (some t)).store t
      (fun x => { x with selected := false }) (fun y => rfl) t
    rw [getW, hrw]
    cases hfd : findW (wm_widget_select st (some t)).store t with
    | none => rfl
    | some w' =>
      have htag : w'.tag = t := (findW_eq_some _ _ _ hfd).2
      simp [hfd, htag]

/-- Witness for `C8_select_deselect_roundtrip` at a concrete state. -/
theorem C8_select_deselect_roundtrip_witness :
    (wm_widget_deselect (wm_widget_select exC8st (some 2)) 2).selected_widgets =
      exC8st.selected_widgets ∧
    (getW (wm_widget_deselect (wm_widget_select exC8st (some 2)) 2).store 2).selected = false :=
  C8_select_deselect_roundtrip exC8st 2
    { tag := 2, idname := "b", wgroup := 0, hidden := false, highlighted := false,
      selected := false, activeFlag := false, highlighted_part := 0,
      hasSelect := true, cursor := none, hasInvoke := false, hasHandler := false,
      opname := none, interaction_data := false }
    (by decide) (by decide) (by decide)

/-! ### Update-pass lemmas: the per-group deletion loop -/

lemma findW_eq_none_iff (s : List wmWidget) (t : Nat) :
    findW s t = none ↔ ∀ w ∈ s, w.tag ≠ t := by
  constructor
  · intro h w hw hc
    have := (findW_isSome_iff s t).mpr ⟨w, hw, hc⟩
    rw [h] at this
    simp at this
  · intro h
    cases hf : findW s t with
    | none => rfl
    | some w =>
      obtain ⟨hm, ht⟩ := findW_eq_some s t w hf
      exact absurd ht (h w hm)

lemma removeW_mem (s : List wmWidget) (t : Nat) (w : wmWidget)
    (h : w ∈ removeW s t) : w ∈ s := by
  induction s with
  | nil => exact absurd h (by simp [removeW])
  | cons a s ih =>
    by_cases h1 : a.tag = t
    · simp only [removeW, if_pos h1] at h
      exact List.mem_cons_of_mem a (ih h)
    · simp only [removeW, if_neg h1] at h
      rcases List.mem_cons.mp h with he | hm
      · exact he ▸ List.mem_cons_self a s
      · exact List.mem_cons_of_mem a (ih hm)

lemma pruneWidgets_frame (ts : List Nat) : ∀ (st : wmWidgetMap) (hl : Option Nat),
    (pruneWidgets st hl ts).1.widgetgroups = st.widgetgroups ∧
    (pruneWidgets st hl ts).1.draw_widgets = st.draw_widgets ∧
    (pruneWidgets st hl ts).1.highlighted_widget = st.highlighted_widget ∧
    (pruneWidgets st hl ts).1.activegroup = st.activegroup ∧
    (pruneWidgets st hl ts).1.active_widget = st.active_widget ∧
    (pruneWidgets st hl ts).1.selected_widgets = st.selected_widgets ∧
    (pruneWidgets st hl ts).1.events = st.events := by
  induction ts with
  | nil => intro st hl; exact ⟨rfl, rfl, rfl, rfl, rfl, rfl, rfl⟩
  | cons t rest ih =>
    intro st hl
    simp only [pruneWidgets]
    by_cases h1 : (getW st.store t).selected = true
    · simp only [if_pos h1]; exact ih st hl
    · simp only [if_neg h1]
      by_cases h2 : (getW st.store t).highlighted = true
      · simp only [if_pos h2]; exact ih st (some t)
      · simp only [if_neg h2]; exact ih (wm_widget_delete st t) hl

lemma pruneWidgets_notmem (ts : List Nat) : ∀ (st : wmWidgetMap) (hl : Option Nat) (x : Nat),
    x ∉ ts →
    findW (pruneWidgets st hl ts).1.store x = findW st.store x ∧
    (pruneWidgets st hl ts).1.freed.count x = st.freed.count x ∧
    (pruneWidgets st hl ts).1.dataFreed.count x = st.dataFreed.count x := by
  induction ts with
  | nil => intro st hl x _; exact ⟨rfl, rfl, rfl⟩
  | cons t rest ih =>
    intro st hl x hx
    have hxt : x ≠ t := fun h => hx (h ▸ List.mem_cons_self t rest)
    have hxr : x ∉ rest := fun h => hx (List.mem_cons_of_mem t h)
    simp only [pruneWidgets]
    by_cases h1 : (getW st.store t).selected = true
    · simp only [if_pos h1]; exact ih st hl x hxr
    · simp only [if_neg h1]
      by_cases h2 : (getW st.store t).highlighted = true
      · simp only [if_pos h2]; exact ih st (some t) x hxr
      · simp only [if_neg h2]
        obtain ⟨hf, hc1, hc2⟩ := ih (wm_widget_delete st t) hl x hxr
        refine ⟨?_, ?_, ?_⟩
        · rw [hf]
          show findW (removeW st.store t) x = findW st.store x
          exact findW_removeW st.store t x hxt
        · rw [hc1]
          show (st.freed ++ [t]).count x = st.freed.count x
          rw [List.count_append]
          have hz : List.count x [t] = 0 := by rw [List.count_eq_zero]; simp [hxt]
          omega
        · rw [hc2]
          show (st.dataFreed ++ [t]).count x = st.dataFreed.count x
          rw [List.count_append]
          have hz : List.count x [t] = 0 := by rw [List.count_eq_zero]; simp [hxt]
          omega

lemma pruneWidgets_kept (ts : List Nat) : ∀ (st : wmWidgetMap) (hl : Option Nat) (x : Nat),
    ((getW st.store x).selected = true ∨ (getW st.store x).highlighted = true) →
    findW (pruneWidgets st hl ts).1.store x = findW st.store x ∧
    (pruneWidgets st hl ts).1.freed.count x = st.freed.count x ∧
    (pruneWidgets st hl ts).1.dataFreed.count x = st.dataFreed.count x := by
  induction ts with
  | nil => intro st hl x _; exact ⟨rfl, rfl, rfl⟩
  | cons t rest ih =>
    intro st hl x hkept
    simp only [pruneWidgets]
    by_cases h1 : (getW st.store t).selected = true
    · simp only [if_pos h1]; exact ih st hl x hkept
    · simp only [if_neg h1]
      by_cases h2 : (getW st.store t).highlighted = true
      · simp only [if_pos h2]; exact ih st (some t) x hkept
      · simp only [if_neg h2]
        have hxt : x ≠ t := by
          intro h
          subst h
          rcases hkept with h | h
          · exact h1 h
          · exact h2 h
        have hgw : getW (wm_widget_delete st t).store x = getW st.store x := by
          show getW (removeW st.store t) x = getW st.store x
          rw [getW, getW, findW_removeW st.store t x hxt]
        obtain ⟨hf, hc1, hc2⟩ := ih (wm_widget_delete st t) hl x (by rw [hgw]; exact hkept)
        refine ⟨?_, ?_, ?_⟩
        · rw [hf]
          show findW (removeW st.store t) x = findW st.store x
          exact findW_removeW st.store t x hxt
        · rw [hc1]
          show (st.freed ++ [t]).count x = st.freed.count x
          rw [List.count_append]
          have hz : List.count x [t] = 0 := by rw [List.count_eq_zero]; simp [hxt]
          omega
        · rw [hc2]
          show (st.dataFreed ++ [t]).count x = st.dataFreed.count x
          rw [List.count_append]
          have hz : List.count x [t] = 0 := by rw [List.count_eq_zero]; simp [hxt]
          omega

lemma pruneWidgets_store_sub (ts : List Nat) : ∀ (st : wmWidgetMap) (hl : Option Nat)
    (w : wmWidget), w ∈ (pruneWidgets st hl ts).1.store → w ∈ st.store := by
  induction ts with
  | nil => intro st hl w h; exact h
  | cons t rest ih =>
    intro st hl w h
    simp only [pruneWidgets] at h
    by_cases h1 : (getW st.store t).selected = true
    · rw [if_pos h1] at h; exact ih st hl w h
    · rw [if_neg h1] at h
      by_cases h2 : (getW st.store t).highlighted = true
      · rw [if_pos h2] at h; exact ih st (some t) w h
      · rw [if_neg h2] at h
        have := ih (wm_widget_delete st t) hl w h
        exact removeW_mem st.store t w this

lemma pruneWidgets_hl_none (ts : List Nat) (hnd : ts.Nodup) :
    ∀ (st : wmWidgetMap) (hl : Option Nat),
    (∀ t ∈ ts, ¬ ((getW st.store t).selected = false ∧ (getW st.store t).highlighted = true)) →
    (pruneWidgets st hl ts).2 = hl := by
  induction ts with
  | nil => intro st hl _; rfl
  | cons t rest ih =>
    have hnd' : rest.Nodup := (List.nodup_cons.mp hnd).2
    have htr : t ∉ rest := (List.nodup_cons.mp hnd).1
    intro st hl hpat
    simp only [pruneWidgets]
    by_cases h1 : (getW st.store t).selected = true
    · rw [if_pos h1]
      exact ih hnd' st hl (fun u hu => hpat u (List.mem_cons_of_mem t hu))
    · rw [if_neg h1]
      by_cases h2 : (getW st.store t).highlighted = true
      · exact absurd ⟨by revert h1; cases (getW st.store t).selected <;> simp, h2⟩
          (hpat t (List.mem_cons_self t rest))
      · rw [if_neg h2]
        refine ih hnd' (wm_widget_delete st t) hl ?_
        intro u hu
        have hut : u ≠ t := fun h => htr (h ▸ hu)
        have hgw : getW (wm_widget_delete st t).store u = getW st.store u := by
          show getW (removeW st.store t) u = getW st.store u
          rw [getW, getW, findW_removeW st.store t u hut]
        rw [hgw]
        exact hpat u (List.mem_cons_of_mem t hu)

lemma pruneWidgets_hl_found (ts : List Nat) (hnd : ts.Nodup) :
    ∀ (st : wmWidgetMap) (hl : Option Nat) (h : Nat),
    h ∈ ts →
    (getW st.store h).selected = false → (getW st.store h).highlighted = true →
    (∀ t ∈ ts, t ≠ h →
      ¬ ((getW st.store t).selected = false ∧ (getW st.store t).highlighted = true)) →
    (pruneWidgets st hl ts).2 = some h := by
  induction ts with
  | nil => intro st hl h hm; simp at hm
  | cons t rest ih =>
    have hnd' : rest.Nodup := (List.nodup_cons.mp hnd).2
    have htr : t ∉ rest := (List.nodup_cons.mp hnd).1
    intro st hl h hm hns hhl hothers
    rcases List.mem_cons.mp hm with he | hm
    · subst he
      simp only [pruneWidgets]
      rw [if_neg (by rw [hns]; simp), if_pos hhl]
      exact pruneWidgets_hl_none rest hnd' st (some h)
        (fun u hu => hothers u (List.mem_cons_of_mem h hu) (fun hc => htr (hc ▸ hu)))
    · have hth : t ≠ h := fun hc => htr (hc ▸ hm)
      simp only [pruneWidgets]
      by_cases h1 : (getW st.store t).selected = true
      · rw [if_pos h1]
        exact ih hnd' st hl h hm hns hhl
          (fun u hu hune => hothers u (List.mem_cons_of_mem t hu) hune)
      · rw [if_neg h1]
        by_cases h2 : (getW st.store t).highlighted = true
        · exact absurd ⟨by revert h1; cases (getW st.store t).selected <;> simp, h2⟩
            (hothers t (List.mem_cons_self t rest) hth)
        · rw [if_neg h2]
          have hgw : ∀ u, u ≠ t →
              getW (wm_widget_delete st t).store u = getW st.store u := by
            intro u hut
            show getW (removeW st.store t) u = getW st.store u
            rw [getW, getW, findW_removeW st.store t u hut]
          refine ih hnd' (wm_widget_delete st t) hl h hm ?_ ?_ ?_
          · rw [hgw h (fun hc => hth hc.symm)]; exact hns
          · rw [hgw h (fun hc => hth hc.symm)]; exact hhl
          · intro u hu hune
            rw [hgw u (fun hc => htr (hc ▸ hu))]
            exact hothers u (List.mem_cons_of_mem t hu) hune

/-! ### Update-pass lemmas: factory output insertion -/

lemma frameOf_eq (s1 s2 : wmWidgetMap) (h : frameOf s1 = frameOf s2) :
    s1.widgetgroups = s2.widgetgroups ∧ s1.highlighted_widget = s2.highlighted_widget ∧
    s1.activegroup = s2.activegroup ∧ s1.active_widget = s2.active_widget ∧
    s1.selected_widgets = s2.selected_widgets ∧ s1.freed = s2.freed ∧
    s1.dataFreed = s2.dataFreed ∧ s1.events = s2.events ∧
    s1.draw_widgets.isSome = s2.draw_widgets.isSome := by
  unfold frameOf at h
  simp only [Prod.mk.injEq] at h
  exact h

lemma insertFresh_frame (ws : List wmWidget) : ∀ (st : wmWidgetMap) (gid : Nat),
    frameOf (insertFresh st gid ws) = frameOf st := by
  induction ws with
  | nil => intro st gid; rfl
  | cons w rest ih =>
    intro st gid
    simp only [insertFresh]
    by_cases h1 : w.hidden = true
    · simp only [if_pos h1]
      rw [ih]
      rfl
    · simp only [if_neg h1]
      rw [ih]
      unfold frameOf
      cases st.draw_widgets <;> rfl

lemma insertFresh_findW_found (ws : List wmWidget) :
    ∀ (st : wmWidgetMap) (gid : Nat) (x : Nat) (w : wmWidget),
    findW st.store x = some w → findW (insertFresh st gid ws).store x = some w := by
  induction ws with
  | nil => intro st gid x w h; exact h
  | cons u rest ih =>
    intro st gid x w h
    simp only [insertFresh]
    by_cases h1 : u.hidden = true <;>
      [skip; skip] <;>
      simp only [if_pos, if_neg, h1] <;>
      exact ih _ gid x w (findW_append_left st.store _ x w h)

lemma insertFresh_findW_none (ws : List wmWidget) :
    ∀ (st : wmWidgetMap) (gid : Nat) (x : Nat),
    findW st.store x = none → (∀ v ∈ ws, v.tag ≠ x) →
    findW (insertFresh st gid ws).store x = none := by
  induction ws with
  | nil => intro st gid x h _; exact h
  | cons u rest ih =>
    intro st gid x h hws
    have hfn : findW (st.store ++ [{ u with wgroup := gid }]) x = none := by
      rw [findW_append_right st.store _ x h]
      simp [findW, hws u (List.mem_cons_self u rest)]
    simp only [insertFresh]
    by_cases h1 : u.hidden = true
    · simp only [if_pos h1]
      exact ih _ gid x hfn (fun v hv => hws v (List.mem_cons_of_mem u hv))
    · simp only [if_neg h1]
      exact ih _ gid x hfn (fun v hv => hws v (List.mem_cons_of_mem u hv))

lemma insertFresh_store_mem (ws : List wmWidget) :
    ∀ (st : wmWidgetMap) (gid : Nat) (w : wmWidget),
    w ∈ (insertFresh st gid ws).store →
    w ∈ st.store ∨ ∃ v ∈ ws, w = { v with wgroup := gid } := by
  induction ws with
  | nil => intro st gid w h; exact Or.inl h
  | cons u rest ih =>
    intro st gid w h
    have hstep : ∀ s1 : wmWidgetMap,
        s1.store = st.store ++ [{ u with wgroup := gid }] →
        w ∈ (insertFresh s1 gid rest).store →
        w ∈ st.store ∨ ∃ v ∈ u :: rest, w = { v with wgroup := gid } := by
      intro s1 hs1 hw
      rcases ih s1 gid w hw with hm | ⟨v, hv, he⟩
      · rw [hs1] at hm
        rcases List.mem_append.mp hm with hm | hm
        · exact Or.inl hm
        · right
          refine ⟨u, List.mem_cons_self u rest, ?_⟩
          exact List.mem_singleton.mp hm
      · exact Or.inr ⟨v, List.mem_cons_of_mem u hv, he⟩
    simp only [insertFresh] at h
    by_cases h1 : u.hidden = true
    · rw [if_pos h1] at h
      exact hstep _ rfl h
    · rw [if_neg h1] at h
      exact hstep _ rfl h

lemma insertFresh_findW_new (ws : List wmWidget) :
    ∀ (st : wmWidgetMap) (gid : Nat) (w : wmWidget),
    w ∈ ws → (ws.map (fun y => y.tag)).Nodup →
    (∀ v ∈ ws, findW st.store v.tag = none) →
    findW (insertFresh st gid ws).store w.tag = some { w with wgroup := gid } := by
  induction ws with
  | nil => intro st gid w h; simp at h
  | cons u rest ih =>
    intro st gid w hm hnd hnone
    have hndr : (rest.map (fun y => y.tag)).Nodup := (List.nodup_cons.mp hnd).2
    have hur : u.tag ∉ rest.map (fun y => y.tag) := (List.nodup_cons.mp hnd).1
    have hfu : findW (st.store ++ [{ u with wgroup := gid }]) u.tag =
        some { u with wgroup := gid } := by
      rw [findW_append_right st.store _ u.tag (hnone u (List.mem_cons_self u rest))]
      simp [findW]
    rcases List.mem_cons.mp hm with he | hm
    · subst he
      simp only [insertFresh]
      by_cases h1 : w.hidden = true
      · simp only [if_pos h1]
        exact insertFresh_findW_found rest _ gid w.tag _ hfu
      · simp only [if_neg h1]
        exact insertFresh_findW_found rest _ gid w.tag _ hfu
    · have hwt : w.tag ≠ u.tag := by
        intro hc
        exact hur (hc ▸ List.mem_map.mpr ⟨w, hm, rfl⟩)
      have hnone' : ∀ v ∈ rest, findW (st.store ++ [{ u with wgroup := gid }]) v.tag = none := by
        intro v hv
        rw [findW_append_right st.store _ v.tag (hnone v (List.mem_cons_of_mem u hv))]
        have hvt : v.tag ≠ u.tag := by
          intro hc
          exact hur (hc ▸ List.mem_map.mpr ⟨v, hv, rfl⟩)
        simp [findW, Ne.symm hvt]
      simp only [insertFresh]
      by_cases h1 : u.hidden = true
      · simp only [if_pos h1]
        exact ih _ gid w hm hndr hnone'
      · simp only [if_neg h1]
        exact ih _ gid w hm hndr hnone'

lemma insertFresh_cacheOf_mem (ws : List wmWidget) :
    ∀ (st : wmWidgetMap) (gid : Nat) (p : String × Nat),
    p ∈ cacheOf (insertFresh st gid ws) →
    p ∈ cacheOf st ∨ ∃ w ∈ ws, w.hidden = false ∧ p = (w.idname, w.tag) := by
  induction ws with
  | nil => intro st gid p h; exact Or.inl h
  | cons u rest ih =>
    intro st gid p h
    simp only [insertFresh] at h
    by_cases h1 : u.hidden = true
    · rw [if_pos h1] at h
      rcases ih _ gid p h with hm | ⟨w, hw, hh, he⟩
      · exact Or.inl hm
      · exact Or.inr ⟨w, List.mem_cons_of_mem u hw, hh, he⟩
    · rw [if_neg h1] at h
      rcases ih _ gid p h with hm | ⟨w, hw, hh, he⟩
      · cases hdw : st.draw_widgets with
        | none => rw [cacheOf] at hm; simp [hdw] at hm
        | some hsh =>
          rw [cacheOf] at hm
          simp only [hdw, Option.map_some'] at hm
          rcases ghashReinsert_mem hsh u.idname u.tag p hm with he | hm
          · exact Or.inr ⟨u, List.mem_cons_self u rest,
              (by revert h1; cases u.hidden <;> simp), he⟩
          · left; rw [cacheOf, hdw]; exact hm
      · exact Or.inr ⟨w, List.mem_cons_of_mem u hw, hh, he⟩

lemma insertFresh_cons_hidden (st : wmWidgetMap) (gid : Nat) (u : wmWidget)
    (rest : List wmWidget) (h : u.hidden = true) :
    insertFresh st gid (u :: rest) =
      insertFresh { st with store := st.store ++ [{ u with wgroup := gid }] } gid rest := by
  simp [insertFresh, h]

lemma insertFresh_cons_visible (st : wmWidgetMap) (gid : Nat) (u : wmWidget)
    (rest : List wmWidget) (h : u.hidden = false) :
    insertFresh st gid (u :: rest) =
      insertFresh { st with store := st.store ++ [{ u with wgroup := gid }], draw_widgets := st.draw_widgets.map (fun hh => ghashReinsert hh u.idname u.tag) } gid rest := by
  simp [insertFresh, h]

lemma insertFresh_lookup (ws : List wmWidget) :
    ∀ (st : wmWidgetMap) (gid : Nat) (k : String), st.draw_widgets.isSome = true →
    ghashLookup (cacheOf (insertFresh st gid ws)) k =
      (ws.filter (fun w => !w.hidden)).foldl
        (fun acc w => if w.idname = k then some w.tag else acc)
        (ghashLookup (cacheOf st) k) := by
  induction ws with
  | nil => intro st gid k _; rfl
  | cons u rest ih =>
    intro st gid k hdw
    obtain ⟨hsh, hval⟩ : ∃ hsh, st.draw_widgets = some hsh := by
      cases hd : st.draw_widgets with
      | none => rw [hd] at hdw; simp at hdw
      | some v => exact ⟨v, rfl⟩
    by_cases h1 : u.hidden = true
    · rw [insertFresh_cons_hidden st gid u rest h1]
      have hfc : List.filter (fun w => !w.hidden) (u :: rest) =
          List.filter (fun w => !w.hidden) rest := by
        simp [List.filter_cons, h1]
      rw [hfc]
      exact ih _ gid k hdw
    · have h0 : u.hidden = false := by revert h1; cases u.hidden <;> simp
      rw [insertFresh_cons_visible st gid u rest h0]
      have hfc : List.filter (fun w => !w.hidden) (u :: rest) =
          u :: List.filter (fun w => !w.hidden) rest := by
        simp [List.filter_cons, h0]
      rw [hfc, List.foldl_cons]
      rw [ih _ gid k (by rw [hval]; rfl)]
      congr 1
      show ghashLookup ((st.draw_widgets.map
          (fun hh => ghashReinsert hh u.idname u.tag)).getD []) k = _
      rw [hval]
      show ghashLookup (ghashReinsert hsh u.idname u.tag) k = _
      rw [ghashLookup_reinsert]
      have hc2 : cacheOf st = hsh := by rw [cacheOf, hval]; rfl
      rw [hc2]
      by_cases hk : u.idname = k
      · simp [hk]
      · have hk2 : ¬ k = u.idname := fun h => hk h.symm
        simp [hk, hk2]

/-! ### Update-pass lemmas: the widget-group loop -/

lemma updateGroup_poll_true (st : wmWidgetMap) (hl : Option Nat) (g : wmWidgetGroup)
    (h : g.poll = true) :
    updateGroup st hl g = (insertFresh (pruneWidgets st hl g.widgets).1 g.gid g.fresh,
      (pruneWidgets st hl g.widgets).2,
      { g with widgets := g.fresh.map (fun w => w.tag), fresh := [] }) := by
  simp [updateGroup, h]

lemma updateGroup_poll_false (st : wmWidgetMap) (hl : Option Nat) (g : wmWidgetGroup)
    (h : g.poll = false) :
    updateGroup st hl g = (st, hl, g) := by
  simp [updateGroup, h]

lemma updateGroupsAux_cons (st : wmWidgetMap) (hl : Option Nat) (g : wmWidgetGroup)
    (gs : List wmWidgetGroup) :
    (updateGroupsAux st hl (g :: gs)).1 =
      (updateGroupsAux (updateGroup st hl g).1 (updateGroup st hl g).2.1 gs).1 ∧
    (updateGroupsAux st hl (g :: gs)).2.1 =
      (updateGroupsAux (updateGroup st hl g).1 (updateGroup st hl g).2.1 gs).2.1 ∧
    (updateGroupsAux st hl (g :: gs)).2.2 =
      (updateGroup st hl g).2.2 ::
        (updateGroupsAux (updateGroup st hl g).1 (updateGroup st hl g).2.1 gs).2.2 :=
  ⟨rfl, rfl, rfl⟩

lemma updateGroupsAux_frame2 (gs : List wmWidgetGroup) : ∀ (st : wmWidgetMap) (hl : Option Nat),
    (updateGroupsAux st hl gs).1.widgetgroups = st.widgetgroups ∧
    (updateGroupsAux st hl gs).1.highlighted_widget = st.highlighted_widget ∧
    (updateGroupsAux st hl gs).1.activegroup = st.activegroup ∧
    (updateGroupsAux st hl gs).1.active_widget = st.active_widget ∧
    (updateGroupsAux st hl gs).1.selected_widgets = st.selected_widgets ∧
    (updateGroupsAux st hl gs).1.events = st.events ∧
    (updateGroupsAux st hl gs).1.draw_widgets.isSome = st.draw_widgets.isSome := by
  induction gs with
  | nil => intro st hl; exact ⟨rfl, rfl, rfl, rfl, rfl, rfl, rfl⟩
  | cons g gs ih =>
    intro st hl
    obtain ⟨hst, _, _⟩ := updateGroupsAux_cons st hl g gs
    by_cases hp : g.poll = true
    · rw [hst, updateGroup_poll_true st hl g hp]
      obtain ⟨a, b, c, d, e, f, i⟩ := ih (insertFresh (pruneWidgets st hl g.widgets).1
        g.gid g.fresh) (pruneWidgets st hl g.widgets).2
      obtain ⟨p1, p2, p3, p4, p5, p6, p7⟩ := pruneWidgets_frame g.widgets st hl
      have hif := frameOf_eq _ _ (insertFresh_frame g.fresh
        (pruneWidgets st hl g.widgets).1 g.gid)
      refine ⟨?_, ?_, ?_, ?_, ?_, ?_, ?_⟩
      · rw [a, hif.1, p1]
      · rw [b, hif.2.1, p3]
      · rw [c, hif.2.2.1, p4]
      · rw [d, hif.2.2.2.1, p5]
      · rw [e, hif.2.2.2.2.1, p6]
      · rw [f, hif.2.2.2.2.2.2.2.1, p7]
      · rw [i, hif.2.2.2.2.2.2.2.2]
        rw [p2]
    · have hp2 : g.poll = false := by revert hp; cases g.poll <;> simp
      rw [hst, updateGroup_poll_false st hl g hp2]
      exact ih st hl

lemma updateGroupsAux_freed_frame (gs : List wmWidgetGroup) :
    ∀ (st : wmWidgetMap) (hl : Option Nat) (x : Nat), x ∉ groupsWidgetTags gs →
    (updateGroupsAux st hl gs).1.freed.count x = st.freed.count x ∧
    (updateGroupsAux st hl gs).1.dataFreed.count x = st.dataFreed.count x := by
  induction gs with
  | nil => intro st hl x _; exact ⟨rfl, rfl⟩
  | cons g gs ih =>
    intro st hl x hx
    have hxg : x ∉ g.widgets := by
      intro hc
      exact hx (by rw [groupsWidgetTags]; exact List.mem_bind.mpr ⟨g, List.mem_cons_self g gs, hc⟩)
    have hxr : x ∉ groupsWidgetTags gs := by
      intro hc
      rw [groupsWidgetTags] at hc
      obtain ⟨g2, hg2, hm2⟩ := List.mem_bind.mp hc
      exact hx (by rw [groupsWidgetTags]; exact List.mem_bind.mpr ⟨g2, List.mem_cons_of_mem g hg2, hm2⟩)
    obtain ⟨hst, _, _⟩ := updateGroupsAux_cons st hl g gs
    by_cases hp : g.poll = true
    · rw [hst, updateGroup_poll_true st hl g hp]
      obtain ⟨c1, c2⟩ := ih (insertFresh (pruneWidgets st hl g.widgets).1 g.gid g.fresh)
        (pruneWidgets st hl g.widgets).2 x hxr
      obtain ⟨_, pc1, pc2⟩ := pruneWidgets_notmem g.widgets st hl x hxg
      have hif := frameOf_eq _ _ (insertFresh_frame g.fresh
        (pruneWidgets st hl g.widgets).1 g.gid)
      constructor
      · rw [c1, hif.2.2.2.2.2.1, pc1]
      · rw [c2, hif.2.2.2.2.2.2.1, pc2]
    · have hp2 : g.poll = false := by revert hp; cases g.poll <;> simp
      rw [hst, updateGroup_poll_false st hl g hp2]
      exact ih st hl x hxr

lemma updateGroupsAux_groups (gs : List wmWidgetGroup) : ∀ (st : wmWidgetMap) (hl : Option Nat),
    (updateGroupsAux st hl gs).2.2 =
      gs.map (fun g => if g.poll then
        { g with widgets := g.fresh.map (fun w => w.tag), fresh := [] } else g) := by
  induction gs with
  | nil => intro st hl; rfl
  | cons g gs ih =>
    intro st hl
    obtain ⟨_, _, hgs⟩ := updateGroupsAux_cons st hl g gs
    rw [hgs, List.map_cons]
    by_cases hp : g.poll = true
    · rw [updateGroup_poll_true st hl g hp]
      rw [ih]
      simp [hp]
    · have hp2 : g.poll = false := by revert hp; cases g.poll <;> simp
      rw [updateGroup_poll_false st hl g hp2]
      rw [ih]
      simp [hp2]

lemma updateGroupsAux_kept (gs : List wmWidgetGroup) :
    ∀ (st : wmWidgetMap) (hl : Option Nat) (x : Nat) (w : wmWidget),
    findW st.store x = some w → (w.selected = true ∨ w.highlighted = true) →
    findW (updateGroupsAux st hl gs).1.store x = some w ∧
    (updateGroupsAux st hl gs).1.freed.count x = st.freed.count x ∧
    (updateGroupsAux st hl gs).1.dataFreed.count x = st.dataFreed.count x := by
  induction gs with
  | nil => intro st hl x w h _; exact ⟨h, rfl, rfl⟩
  | cons g gs ih =>
    intro st hl x w hfind hflag
    obtain ⟨hst, _, _⟩ := updateGroupsAux_cons st hl g gs
    by_cases hp : g.poll = true
    · rw [hst, updateGroup_poll_true st hl g hp]
      have hkept : (getW st.store x).selected = true ∨ (getW st.store x).highlighted = true := by
        rw [getW, hfind]; exact hflag
      obtain ⟨pf, pc1, pc2⟩ := pruneWidgets_kept g.widgets st hl x hkept
      have hfind1 : findW (pruneWidgets st hl g.widgets).1.store x = some w := by
        rw [pf]; exact hfind
      have hfind2 := insertFresh_findW_found g.fresh (pruneWidgets st hl g.widgets).1
        g.gid x w hfind1
      obtain ⟨rf, rc1, rc2⟩ := ih _ (pruneWidgets st hl g.widgets).2 x w hfind2 hflag
      have hif := frameOf_eq _ _ (insertFresh_frame g.fresh
        (pruneWidgets st hl g.widgets).1 g.gid)
      refine ⟨rf, ?_, ?_⟩
      · rw [rc1, hif.2.2.2.2.2.1, pc1]
      · rw [rc2, hif.2.2.2.2.2.2.1, pc2]
    · have hp2 : g.poll = false := by revert hp; cases g.poll <;> simp
      rw [hst, updateGroup_poll_false st hl g hp2]
      exact ih st hl x w hfind hflag

lemma updateGroupsAux_notlisted (gs : List wmWidgetGroup) :
    ∀ (st : wmWidgetMap) (hl : Option Nat) (x : Nat) (w : wmWidget),
    findW st.store x = some w → x ∉ groupsWidgetTags gs →
    findW (updateGroupsAux st hl gs).1.store x = some w := by
  induction gs with
  | nil => intro st hl x w h _; exact h
  | cons g gs ih =>
    intro st hl x w hfind hx
    have hxg : x ∉ g.widgets := by
      intro hc
      exact hx (by rw [groupsWidgetTags]; exact List.mem_bind.mpr ⟨g, List.mem_cons_self g gs, hc⟩)
    have hxr : x ∉ groupsWidgetTags gs := by
      intro hc
      rw [groupsWidgetTags] at hc
      obtain ⟨g2, hg2, hm2⟩ := List.mem_bind.mp hc
      exact hx (by rw [groupsWidgetTags]; exact List.mem_bind.mpr ⟨g2, List.mem_cons_of_mem g hg2, hm2⟩)
    obtain ⟨hst, _, _⟩ := updateGroupsAux_cons st hl g gs
    by_cases hp : g.poll = true
    · rw [hst, updateGroup_poll_true st hl g hp]
      obtain ⟨pf, _, _⟩ := pruneWidgets_notmem g.widgets st hl x hxg
      have hfind1 : findW (pruneWidgets st hl g.widgets).1.store x = some w := by
        rw [pf]; exact hfind
      exact ih _ _ x w (insertFresh_findW_found g.fresh _ g.gid x w hfind1) hxr
    · have hp2 : g.poll = false := by revert hp; cases g.poll <;> simp
      rw [hst, updateGroup_poll_false st hl g hp2]
      exact ih st hl x w hfind hxr

lemma updateGroupsAux_findW_none (gs : List wmWidgetGroup) :
    ∀ (st : wmWidgetMap) (hl : Option Nat) (x : Nat),
    findW st.store x = none → x ∉ groupsFreshTags gs →
    findW (updateGroupsAux st hl gs).1.store x = none := by
  induction gs with
  | nil => intro st hl x h _; exact h
  | cons g gs ih =>
    intro st hl x hfind hx
    have hxg : ∀ v ∈ g.fresh, v.tag ≠ x := by
      intro v hv hc
      refine hx ?_
      rw [groupsFreshTags]
      exact List.mem_bind.mpr ⟨g, List.mem_cons_self g gs,
        List.mem_map.mpr ⟨v, hv, hc⟩⟩
    have hxr : x ∉ groupsFreshTags gs := by
      intro hc
      rw [groupsFreshTags] at hc
      obtain ⟨g2, hg2, hm2⟩ := List.mem_bind.mp hc
      exact hx (by rw [groupsFreshTags]; exact List.mem_bind.mpr ⟨g2, List.mem_cons_of_mem g hg2, hm2⟩)
    obtain ⟨hst, _, _⟩ := updateGroupsAux_cons st hl g gs
    by_cases hp : g.poll = true
    · rw [hst, updateGroup_poll_true st hl g hp]
      have hn1 : findW (pruneWidgets st hl g.widgets).1.store x = none := by
        cases hc : findW (pruneWidgets st hl g.widgets).1.store x with
        | none => rfl
        | some w =>
          obtain ⟨hm, ht⟩ := findW_eq_some _ _ _ hc
          have hms := pruneWidgets_store_sub g.widgets st hl w hm
          have := (findW_eq_none_iff st.store x).mp hfind w hms
          exact absurd ht this
      exact ih _ _ x (insertFresh_findW_none g.fresh _ g.gid x hn1 hxg) hxr
    · have hp2 : g.poll = false := by revert hp; cases g.poll <;> simp
      rw [hst, updateGroup_poll_false st hl g hp2]
      exact ih st hl x hfind hxr

lemma updateGroupsAux_cache_mem (gs : List wmWidgetGroup) :
    ∀ (st : wmWidgetMap) (hl : Option Nat) (p : String × Nat),
    p ∈ cacheOf (updateGroupsAux st hl gs).1 →
    p ∈ cacheOf st ∨ ∃ g ∈ gs, g.poll = true ∧
      ∃ w ∈ g.fresh, w.hidden = false ∧ p = (w.idname, w.tag) := by
  induction gs with
  | nil => intro st hl p h; exact Or.inl h
  | cons g gs ih =>
    intro st hl p hp
    obtain ⟨hst, _, _⟩ := updateGroupsAux_cons st hl g gs
    by_cases hpo : g.poll = true
    · rw [hst, updateGroup_poll_true st hl g hpo] at hp
      rcases ih _ _ p hp with hm | ⟨g2, hg2, hpo2, w, hw, hh, he⟩
      · rcases insertFresh_cacheOf_mem g.fresh _ g.gid p hm with hm2 | ⟨w, hw, hh, he⟩
        · left
          have hdw := (pruneWidgets_frame g.widgets st hl).2.1
          rw [cacheOf, hdw] at hm2
          exact hm2
        · exact Or.inr ⟨g, List.mem_cons_self g gs, hpo, w, hw, hh, he⟩
      · exact Or.inr ⟨g2, List.mem_cons_of_mem g hg2, hpo2, w, hw, hh, he⟩
    · have hp2 : g.poll = false := by revert hpo; cases g.poll <;> simp
      rw [hst, updateGroup_poll_false st hl g hp2] at hp
      rcases ih st hl p hp with hm | ⟨g2, hg2, hpo2, w, hw, hh, he⟩
      · exact Or.inl hm
      · exact Or.inr ⟨g2, List.mem_cons_of_mem g hg2, hpo2, w, hw, hh, he⟩

lemma updateGroupsAux_lookup (gs : List wmWidgetGroup) :
    ∀ (st : wmWidgetMap) (hl : Option Nat) (k : String), st.draw_widgets.isSome = true →
    ghashLookup (cacheOf (updateGroupsAux st hl gs).1) k =
      (freshVisibleOf gs).foldl (fun acc w => if w.idname = k then some w.tag else acc)
        (ghashLookup (cacheOf st) k) := by
  induction gs with
  | nil => intro st hl k _; rfl
  | cons g gs ih =>
    intro st hl k hdw
    obtain ⟨hst, _, _⟩ := updateGroupsAux_cons st hl g gs
    by_cases hp : g.poll = true
    · rw [hst, updateGroup_poll_true st hl g hp]
      have hfv : freshVisibleOf (g :: gs) =
          g.fresh.filter (fun w => !w.hidden) ++ freshVisibleOf gs := by
        rw [freshVisibleOf, freshVisibleOf, List.filter_cons]
        simp [hp]
      rw [hfv, List.foldl_append]
      have hdw1 : (pruneWidgets st hl g.widgets).1.draw_widgets = st.draw_widgets :=
        (pruneWidgets_frame g.widgets st hl).2.1
      have hdw2 : (insertFresh (pruneWidgets st hl g.widgets).1 g.gid g.fresh).draw_widgets.isSome
          = true := by
        have hif := frameOf_eq _ _ (insertFresh_frame g.fresh
          (pruneWidgets st hl g.widgets).1 g.gid)
        rw [hif.2.2.2.2.2.2.2.2, hdw1]
        exact hdw
      rw [ih _ (pruneWidgets st hl g.widgets).2 k hdw2]
      congr 1
      rw [insertFresh_lookup g.fresh (pruneWidgets st hl g.widgets).1 g.gid k
        (by rw [hdw1]; exact hdw)]
      congr 1
      rw [cacheOf, cacheOf, hdw1]
    · have hp2 : g.poll = false := by revert hp; cases g.poll <;> simp
      rw [hst, updateGroup_poll_false st hl g hp2]
      have hfv : freshVisibleOf (g :: gs) = freshVisibleOf gs := by
        rw [freshVisibleOf, freshVisibleOf, List.filter_cons]
        simp [hp2]
      rw [hfv]
      exact ih st hl k hdw

lemma groupsFreshTags_cons (g0 : wmWidgetGroup) (gs : List wmWidgetGroup) :
    groupsFreshTags (g0 :: gs) = g0.fresh.map (fun w => w.tag) ++ groupsFreshTags gs := rfl

lemma groupsWidgetTags_cons (g0 : wmWidgetGroup) (gs : List wmWidgetGroup) :
    groupsWidgetTags (g0 :: gs) = g0.widgets ++ groupsWidgetTags gs := rfl

lemma pruneWidgets_findW_none (ts : List Nat) (st : wmWidgetMap) (hl : Option Nat) (x : Nat)
    (h : findW st.store x = none) :
    findW (pruneWidgets st hl ts).1.store x = none := by
  cases hc : findW (pruneWidgets st hl ts).1.store x with
  | none => rfl
  | some w =>
    obtain ⟨hm, ht⟩ := findW_eq_some _ _ _ hc
    have hms := pruneWidgets_store_sub ts st hl w hm
    exact absurd ht ((findW_eq_none_iff st.store x).mp h w hms)

lemma updateGroupsAux_findW_fresh (gs : List wmWidgetGroup) :
    ∀ (st : wmWidgetMap) (hl : Option Nat) (g : wmWidgetGroup) (w : wmWidget),
    g ∈ gs → g.poll = true → w ∈ g.fresh →
    (groupsFreshTags gs).Nodup →
    (∀ v ∈ groupsFreshTags gs, findW st.store v = none) →
    (∀ v ∈ groupsFreshTags gs, v ∉ groupsWidgetTags gs) →
    findW (updateGroupsAux st hl gs).1.store w.tag = some { w with wgroup := g.gid } := by
  induction gs with
  | nil => intro st hl g w hg; simp at hg
  | cons g0 gs ih =>
    intro st hl g w hg hgp hw hnd hnone hdisj
    have hwtag : w.tag ∈ groupsFreshTags (g0 :: gs) := by
      rw [groupsFreshTags]
      exact List.mem_bind.mpr ⟨g, hg, List.mem_map.mpr ⟨w, hw, rfl⟩⟩
    rw [groupsFreshTags_cons] at hnd
    have hnd0 : (g0.fresh.map (fun y => y.tag)).Nodup := (List.nodup_append.mp hnd).1
    have hndr : (groupsFreshTags gs).Nodup := (List.nodup_append.mp hnd).2.1
    have hdj : (g0.fresh.map (fun y => y.tag)).Disjoint (groupsFreshTags gs) :=
      (List.nodup_append.mp hnd).2.2
    obtain ⟨hst, _, _⟩ := updateGroupsAux_cons st hl g0 gs
    rcases List.mem_cons.mp hg with he | hg
    · subst he
      rw [hst, updateGroup_poll_true st hl g hgp]
      have hpn : ∀ v ∈ g.fresh, findW (pruneWidgets st hl g.widgets).1.store v.tag = none := by
        intro v hv
        refine pruneWidgets_findW_none g.widgets st hl v.tag ?_
        refine hnone v.tag ?_
        rw [groupsFreshTags_cons]
        exact List.mem_append.mpr (Or.inl (List.mem_map.mpr ⟨v, hv, rfl⟩))
      have hin := insertFresh_findW_new g.fresh (pruneWidgets st hl g.widgets).1 g.gid w hw
        hnd0 hpn
      have hnl : w.tag ∉ groupsWidgetTags gs := by
        intro hc
        refine hdisj w.tag hwtag ?_
        rw [groupsWidgetTags_cons]
        exact List.mem_append.mpr (Or.inr hc)
      exact updateGroupsAux_notlisted gs _ _ w.tag _ hin hnl
    · by_cases hp0 : g0.poll = true
      · rw [hst, updateGroup_poll_true st hl g0 hp0]
        refine ih _ _ g w hg hgp hw hndr ?_ ?_
        · intro v hv
          have hvn : findW st.store v = none := by
            refine hnone v ?_
            rw [groupsFreshTags_cons]
            exact List.mem_append.mpr (Or.inr hv)
          have hp1 := pruneWidgets_findW_none g0.widgets st hl v hvn
          refine insertFresh_findW_none g0.fresh _ g0.gid v hp1 ?_
          intro u hu hc
          exact hdj (hc ▸ List.mem_map.mpr ⟨u, hu, rfl⟩) hv
        · intro v hv hc
          have hv2 : v ∈ groupsFreshTags (g0 :: gs) := by
            rw [groupsFreshTags_cons]
            exact List.mem_append.mpr (Or.inr hv)
          refine hdisj v hv2 ?_
          rw [groupsWidgetTags_cons]
          exact List.mem_append.mpr (Or.inr hc)
      · have hp2 : g0.poll = false := by revert hp0; cases g0.poll <;> simp
        rw [hst, updateGroup_poll_false st hl g0 hp2]
        refine ih st hl g w hg hgp hw hndr ?_ ?_
        · intro v hv
          refine hnone v ?_
          rw [groupsFreshTags_cons]
          exact List.mem_append.mpr (Or.inr hv)
        · intro v hv hc
          have hv2 : v ∈ groupsFreshTags (g0 :: gs) := by
            rw [groupsFreshTags_cons]
            exact List.mem_append.mpr (Or.inr hv)
          refine hdisj v hv2 ?_
          rw [groupsWidgetTags_cons]
          exact List.mem_append.mpr (Or.inr hc)

lemma pruneWidgets_hl_only (ts : List Nat) : ∀ (st : wmWidgetMap) (hl : Option Nat) (h : Nat),
    (∀ w ∈ st.store, w.highlighted = true → w.tag = h) →
    h ∉ ts →
    (pruneWidgets st hl ts).2 = hl ∧
    (∀ w ∈ (pruneWidgets st hl ts).1.store, w.highlighted = true → w.tag = h) := by
  induction ts with
  | nil => intro st hl h hinv _; exact ⟨rfl, hinv⟩
  | cons t rest ih =>
    intro st hl h hinv hh
    have hth : t ≠ h := fun hc => hh (hc ▸ List.mem_cons_self t rest)
    have hhr : h ∉ rest := fun hc => hh (List.mem_cons_of_mem t hc)
    have hghl : (getW st.store t).highlighted = true → False := by
      intro hc
      rw [getW] at hc
      cases hf : findW st.store t with
      | none => rw [hf] at hc; exact absurd hc (by simp [default])
      | some wt =>
        rw [hf] at hc
        have h1 := hinv wt (findW_eq_some _ _ _ hf).1 hc
        exact hth ((findW_eq_some _ _ _ hf).2.symm.trans h1)
    simp only [pruneWidgets]
    by_cases h1 : (getW st.store t).selected = true
    · rw [if_pos h1]; exact ih st hl h hinv hhr
    · rw [if_neg h1, if_neg (fun hc => hghl hc)]
      refine ih _ hl h ?_ hhr
      intro w hw
      exact hinv w (removeW_mem st.store t w hw)

lemma insertFresh_hl_only (ws : List wmWidget) (st : wmWidgetMap) (gid : Nat) (h : Nat)
    (hinv : ∀ w ∈ st.store, w.highlighted = true → w.tag = h)
    (hfr : ∀ w ∈ ws, w.highlighted = false) :
    ∀ w ∈ (insertFresh st gid ws).store, w.highlighted = true → w.tag = h := by
  intro w hw hc
  rcases insertFresh_store_mem ws st gid w hw with hm | ⟨v, hv, he⟩
  · exact hinv w hm hc
  · rw [he] at hc
    have := hfr v hv
    simp at hc
    rw [hc] at this
    simp at this

lemma updateGroupsAux_hl_only (gs : List wmWidgetGroup) :
    ∀ (st : wmWidgetMap) (hl : Option Nat) (h : Nat),
    (∀ w ∈ st.store, w.highlighted = true → w.tag = h) →
    (∀ g ∈ gs, ∀ w ∈ g.fresh, w.highlighted = false) →
    h ∉ groupsWidgetTags gs →
    (updateGroupsAux st hl gs).2.1 = hl ∧
    (∀ w ∈ (updateGroupsAux st hl gs).1.store, w.highlighted = true → w.tag = h) := by
  induction gs with
  | nil => intro st hl h hinv _ _; exact ⟨rfl, hinv⟩
  | cons g0 gs ih =>
    intro st hl h hinv hfr hh
    have hh0 : h ∉ g0.widgets := by
      intro hc
      refine hh ?_
      rw [groupsWidgetTags_cons]
      exact List.mem_append.mpr (Or.inl hc)
    have hhr : h ∉ groupsWidgetTags gs := by
      intro hc
      refine hh ?_
      rw [groupsWidgetTags_cons]
      exact List.mem_append.mpr (Or.inr hc)
    obtain ⟨hst, hhl, _⟩ := updateGroupsAux_cons st hl g0 gs
    by_cases hp : g0.poll = true
    · rw [hst, updateGroup_poll_true st hl g0 hp]
      rw [hhl, updateGroup_poll_true st hl g0 hp]
      obtain ⟨ph, pinv⟩ := pruneWidgets_hl_only g0.widgets st hl h hinv hh0
      have iinv := insertFresh_hl_only g0.fresh (pruneWidgets st hl g0.widgets).1 g0.gid h pinv
        (hfr g0 (List.mem_cons_self g0 gs))
      obtain ⟨rh, rinv⟩ := ih _ (pruneWidgets st hl g0.widgets).2 h iinv
        (fun g2 hg2 => hfr g2 (List.mem_cons_of_mem g0 hg2)) hhr
      exact ⟨rh.trans ph, rinv⟩
    · have hp2 : g0.poll = false := by revert hp; cases g0.poll <;> simp
      rw [hst, updateGroup_poll_false st hl g0 hp2]
      rw [hhl, updateGroup_poll_false st hl g0 hp2]
      exact ih st hl h hinv (fun g2 hg2 => hfr g2 (List.mem_cons_of_mem g0 hg2)) hhr

lemma pruneWidgets_hl_single_inv (ts : List Nat) (hnd : ts.Nodup) (st : wmWidgetMap)
    (hl : Option Nat) (h : Nat) (hw : wmWidget)
    (hfind : findW st.store h = some hw) (hsel : hw.selected = false)
    (hhl : hw.highlighted = true)
    (honly : ∀ w ∈ st.store, w.highlighted = true → w.tag = h)
    (hm : h ∈ ts) :
    (pruneWidgets st hl ts).2 = some h := by
  refine pruneWidgets_hl_found ts hnd st hl h hm ?_ ?_ ?_
  · rw [getW, hfind]; exact hsel
  · rw [getW, hfind]; exact hhl
  · intro t ht htne hpat
    obtain ⟨hts, hth⟩ := hpat
    rw [getW] at hth
    cases hf : findW st.store t with
    | none => rw [hf] at hth; exact absurd hth (by simp [default])
    | some wt =>
      rw [hf] at hth
      have h1 := honly wt (findW_eq_some _ _ _ hf).1 hth
      exact htne ((findW_eq_some _ _ _ hf).2.symm.trans h1)

lemma updateGroupsAux_hl_single (gs : List wmWidgetGroup) :
    ∀ (st : wmWidgetMap) (hl : Option Nat) (h : Nat) (hw : wmWidget) (g : wmWidgetGroup),
    g ∈ gs → g.poll = true → h ∈ g.widgets →
    findW st.store h = some hw → hw.selected = false → hw.highlighted = true →
    (∀ w ∈ st.store, w.highlighted = true → w.tag = h) →
    (∀ g2 ∈ gs, ∀ w ∈ g2.fresh, w.highlighted = false) →
    (groupsWidgetTags gs).Nodup →
    (updateGroupsAux st hl gs).2.1 = some h := by
  induction gs with
  | nil => intro st hl h hw g hg; simp at hg
  | cons g0 gs ih =>
    intro st hl h hw g hg hgp hgm hfind hsel hhl honly hfr hnd
    rw [groupsWidgetTags_cons] at hnd
    have hnd0 : g0.widgets.Nodup := (List.nodup_append.mp hnd).1
    have hndr : (groupsWidgetTags gs).Nodup := (List.nodup_append.mp hnd).2.1
    have hdj : g0.widgets.Disjoint (groupsWidgetTags gs) := (List.nodup_append.mp hnd).2.2
    obtain ⟨hst, hhlc, _⟩ := updateGroupsAux_cons st hl g0 gs
    rcases List.mem_cons.mp hg with he | hg
    · subst he
      rw [hhlc, updateGroup_poll_true st hl g hgp]
      have ph := pruneWidgets_hl_single_inv g.widgets hnd0 st hl h hw hfind hsel hhl honly hgm
      obtain ⟨ppres, pinv⟩ : (pruneWidgets st hl g.widgets).2 = (pruneWidgets st hl g.widgets).2 ∧
          (∀ w ∈ (pruneWidgets st hl g.widgets).1.store, w.highlighted = true → w.tag = h) := by
        refine ⟨rfl, ?_⟩
        intro w hwm
        exact honly w (pruneWidgets_store_sub g.widgets st hl w hwm)
      have iinv := insertFresh_hl_only g.fresh (pruneWidgets st hl g.widgets).1 g.gid h pinv
        (hfr g (List.mem_cons_self g gs))
      have hh2 : h ∉ groupsWidgetTags gs := fun hc => hdj hgm hc
      obtain ⟨rh, _⟩ := updateGroupsAux_hl_only gs _ (pruneWidgets st hl g.widgets).2 h iinv
        (fun g2 hg2 => hfr g2 (List.mem_cons_of_mem g hg2)) hh2
      rw [rh, ph]
    · have hgmr : h ∈ groupsWidgetTags gs := by
        rw [groupsWidgetTags]
        exact List.mem_bind.mpr ⟨g, hg, hgm⟩
      have hh0 : h ∉ g0.widgets := fun hc => hdj hc hgmr
      by_cases hp0 : g0.poll = true
      · rw [hhlc, updateGroup_poll_true st hl g0 hp0]
        obtain ⟨ph, pinv⟩ := pruneWidgets_hl_only g0.widgets st hl h honly hh0
        have iinv := insertFresh_hl_only g0.fresh (pruneWidgets st hl g0.widgets).1 g0.gid h pinv
          (hfr g0 (List.mem_cons_self g0 gs))
        have hfind1 : findW (pruneWidgets st hl g0.widgets).1.store h = some hw := by
          rw [(pruneWidgets_notmem g0.widgets st hl h hh0).1]
          exact hfind
        have hfind2 := insertFresh_findW_found g0.fresh _ g0.gid h hw hfind1
        exact ih _ _ h hw g hg hgp hgm hfind2 hsel hhl iinv
          (fun g2 hg2 => hfr g2 (List.mem_cons_of_mem g0 hg2)) hndr
      · have hp2 : g0.poll = false := by revert hp0; cases g0.poll <;> simp
        rw [hhlc, updateGroup_poll_false st hl g0 hp2]
        exact ih st hl h hw g hg hgp hgm hfind hsel hhl honly
          (fun g2 hg2 => hfr g2 (List.mem_cons_of_mem g0 hg2)) hndr

lemma pruneWidgets_no_hl (ts : List Nat) : ∀ (st : wmWidgetMap) (hl : Option Nat),
    (∀ w ∈ st.store, w.highlighted = false) →
    (pruneWidgets st hl ts).2 = hl ∧
    (∀ w ∈ (pruneWidgets st hl ts).1.store, w.highlighted = false) := by
  induction ts with
  | nil => intro st hl hinv; exact ⟨rfl, hinv⟩
  | cons t rest ih =>
    intro st hl hinv
    have hghl : ¬ (getW st.store t).highlighted = true := by
      intro hc
      rw [getW] at hc
      cases hf : findW st.store t with
      | none =>
        rw [hf] at hc
        have hc2 : (default : wmWidget).highlighted = true := hc
        exact absurd hc2 (by simp [default])
      | some wt =>
        rw [hf] at hc
        have hc2 : wt.highlighted = true := hc
        have := hinv wt (findW_eq_some _ _ _ hf).1
        rw [this] at hc2
        exact absurd hc2 (by simp)
    simp only [pruneWidgets]
    by_cases h1 : (getW st.store t).selected = true
    · rw [if_pos h1]; exact ih st hl hinv
    · rw [if_neg h1, if_neg hghl]
      refine ih _ hl ?_
      intro w hw
      exact hinv w (removeW_mem st.store t w hw)

lemma updateGroupsAux_no_hl (gs : List wmWidgetGroup) :
    ∀ (st : wmWidgetMap) (hl : Option Nat),
    (∀ w ∈ st.store, w.highlighted = false) →
    (∀ g ∈ gs, ∀ w ∈ g.fresh, w.highlighted = false) →
    (updateGroupsAux st hl gs).2.1 = hl ∧
    (∀ w ∈ (updateGroupsAux st hl gs).1.store, w.highlighted = false) := by
  induction gs with
  | nil => intro st hl hinv _; exact ⟨rfl, hinv⟩
  | cons g0 gs ih =>
    intro st hl hinv hfr
    obtain ⟨hst, hhlc, _⟩ := updateGroupsAux_cons st hl g0 gs
    by_cases hp : g0.poll = true
    · rw [hst, updateGroup_poll_true st hl g0 hp]
      rw [hhlc, updateGroup_poll_true st hl g0 hp]
      obtain ⟨ph, pinv⟩ := pruneWidgets_no_hl g0.widgets st hl hinv
      have iinv : ∀ w ∈ (insertFresh (pruneWidgets st hl g0.widgets).1 g0.gid
          g0.fresh).store, w.highlighted = false := by
        intro w hwm
        rcases insertFresh_store_mem g0.fresh _ g0.gid w hwm with hm | ⟨v, hv, he⟩
        · exact pinv w hm
        · rw [he]
          exact hfr g0 (List.mem_cons_self g0 gs) v hv
      obtain ⟨rh, rinv⟩ := ih _ (pruneWidgets st hl g0.widgets).2 iinv
        (fun g2 hg2 => hfr g2 (List.mem_cons_of_mem g0 hg2))
      exact ⟨rh.trans ph, rinv⟩
    · have hp2 : g0.poll = false := by revert hp; cases g0.poll <;> simp
      rw [hst, updateGroup_poll_false st hl g0 hp2]
      rw [hhlc, updateGroup_poll_false st hl g0 hp2]
      exact ih st hl hinv (fun g2 hg2 => hfr g2 (List.mem_cons_of_mem g0 hg2))

lemma widget_highlight_update_frame (st : wmWidgetMap) (old nw : Nat) :
    (widget_highlight_update st old nw).draw_widgets = st.draw_widgets ∧
    (widget_highlight_update st old nw).widgetgroups = st.widgetgroups ∧
    (widget_highlight_update st old nw).activegroup = st.activegroup ∧
    (widget_highlight_update st old nw).active_widget = st.active_widget ∧
    (widget_highlight_update st old nw).selected_widgets = st.selected_widgets ∧
    (widget_highlight_update st old nw).freed = st.freed ∧
    (widget_highlight_update st old nw).dataFreed = st.dataFreed ∧
    (widget_highlight_update st old nw).events = st.events :=
  ⟨rfl, rfl, rfl, rfl, rfl, rfl, rfl, rfl⟩

lemma widget_highlight_update_eq (st : wmWidgetMap) (old nw : Nat) :
    (widget_highlight_update st old nw).store =
      setW st.store nw (fun x => { x with highlighted := true, highlighted_part := (getW st.store old).highlighted_part }) ∧
    (widget_highlight_update st old nw).highlighted_widget = some nw :=
  ⟨rfl, rfl⟩

lemma selReconcileAux_cons_none (st : wmWidgetMap) (s : Nat) (rest : List Nat)
    (h : ghashLookup (cacheOf st) (getW st.store s).idname = none) :
    (selReconcileAux st (s :: rest)).1 = (selReconcileAux st rest).1 ∧
    (selReconcileAux st (s :: rest)).2 = s :: (selReconcileAux st rest).2 := by
  constructor <;> simp [selReconcileAux, h]

lemma selReconcileAux_cons_some (st : wmWidgetMap) (s : Nat) (rest : List Nat) (n : Nat)
    (h : ghashLookup (cacheOf st) (getW st.store s).idname = some n) :
    (selReconcileAux st (s :: rest)).1 = (selReconcileAux (selStep st s n) rest).1 ∧
    (selReconcileAux st (s :: rest)).2 = n :: (selReconcileAux (selStep st s n) rest).2 := by
  constructor <;> simp [selReconcileAux, selStep, h]

lemma selStep_frame (st : wmWidgetMap) (s n : Nat) :
    (selStep st s n).draw_widgets = st.draw_widgets ∧
    (selStep st s n).widgetgroups = st.widgetgroups ∧
    (selStep st s n).activegroup = st.activegroup ∧
    (selStep st s n).active_widget = st.active_widget ∧
    (selStep st s n).selected_widgets = st.selected_widgets ∧
    (selStep st s n).freed = st.freed ∧
    (selStep st s n).events = st.events := by
  by_cases h : (getW st.store s).highlighted = true <;>
    simp [selStep, widget_highlight_update, h]

lemma selStep_dataFreed (st : wmWidgetMap) (s n : Nat) :
    (selStep st s n).dataFreed = st.dataFreed ++ [s] := by
  by_cases h : (getW st.store s).highlighted = true <;>
    simp [selStep, widget_highlight_update, h]

lemma selStep_store (st : wmWidgetMap) (s n : Nat) :
    (selStep st s n).store =
      if (getW st.store s).highlighted
      then setW (setW st.store n (fun x => { x with highlighted := true, highlighted_part := (getW st.store s).highlighted_part })) n (fun x => { x with selected := true })
      else setW st.store n (fun x => { x with selected := true }) := by
  by_cases h : (getW st.store s).highlighted = true <;>
    simp [selStep, widget_highlight_update, h]

lemma selReconcileAux_frame (l : List Nat) : ∀ (st : wmWidgetMap),
    (selReconcileAux st l).1.draw_widgets = st.draw_widgets ∧
    (selReconcileAux st l).1.widgetgroups = st.widgetgroups ∧
    (selReconcileAux st l).1.activegroup = st.activegroup ∧
    (selReconcileAux st l).1.active_widget = st.active_widget ∧
    (selReconcileAux st l).1.selected_widgets = st.selected_widgets ∧
    (selReconcileAux st l).1.freed = st.freed ∧
    (selReconcileAux st l).1.events = st.events := by
  induction l with
  | nil => intro st; exact ⟨rfl, rfl, rfl, rfl, rfl, rfl, rfl⟩
  | cons s rest ih =>
    intro st
    cases hlk : ghashLookup (cacheOf st) (getW st.store s).idname with
    | none =>
      rw [(selReconcileAux_cons_none st s rest hlk).1]
      exact ih st
    | some n =>
      rw [(selReconcileAux_cons_some st s rest n hlk).1]
      obtain ⟨a, b, c, d, e, f, g⟩ := ih (selStep st s n)
      obtain ⟨a2, b2, c2, d2, e2, f2, g2⟩ := selStep_frame st s n
      exact ⟨a.trans a2, b.trans b2, c.trans c2, d.trans d2, e.trans e2, f.trans f2, g.trans g2⟩

lemma selReconcileAux_len (l : List Nat) : ∀ (st : wmWidgetMap),
    (selReconcileAux st l).2.length = l.length := by
  induction l with
  | nil => intro st; rfl
  | cons s rest ih =>
    intro st
    cases hlk : ghashLookup (cacheOf st) (getW st.store s).idname with
    | none =>
      rw [(selReconcileAux_cons_none st s rest hlk).2]
      simp [ih st]
    | some n =>
      rw [(selReconcileAux_cons_some st s rest n hlk).2]
      simp [ih (selStep st s n)]

lemma findW_setW_some (s : List wmWidget) (t : Nat) (f : wmWidget → wmWidget)
    (hf : ∀ y, (f y).tag = y.tag) (x : Nat) (w : wmWidget) (h : findW s x = some w) :
    findW (setW s t f) x = some (if w.tag = t then f w else w) := by
  rw [findW_setW s t f hf x, h]
  rfl

lemma findW_setW_self (s : List wmWidget) (t : Nat) (f : wmWidget → wmWidget)
    (hf : ∀ y, (f y).tag = y.tag) (w : wmWidget) (h : findW s t = some w) :
    findW (setW s t f) t = some (f w) := by
  rw [findW_setW_some s t f hf t w h, if_pos (findW_eq_some s t w h).2]

lemma findW_setW_proj {β : Type} (s : List wmWidget) (t : Nat) (f : wmWidget → wmWidget)
    (hft : ∀ y, (f y).tag = y.tag) (g : wmWidget → β) (hfg : ∀ y, g (f y) = g y) (x : Nat) :
    (findW (setW s t f) x).map g = (findW s x).map g := by
  rw [findW_setW s t f hft x]
  cases h : findW s x with
  | none => rfl
  | some w =>
    by_cases h1 : w.tag = t <;> simp [h1, hfg]

lemma selStep_proj {β : Type} (g : wmWidget → β)
    (hg1 : ∀ (p : Nat) (y : wmWidget),
      g { y with highlighted := true, highlighted_part := p } = g y)
    (hg2 : ∀ y : wmWidget, g { y with selected := true } = g y)
    (st : wmWidgetMap) (s n x : Nat) :
    (findW (selStep st s n).store x).map g = (findW st.store x).map g := by
  rw [selStep_store]
  by_cases h : (getW st.store s).highlighted = true
  · rw [if_pos h]
    rw [findW_setW_proj _ n (fun y => { y with selected := true }) (fun y => rfl) g hg2 x]
    rw [findW_setW_proj _ n (fun y => { y with highlighted := true, highlighted_part := (getW st.store s).highlighted_part }) (fun y => rfl) g (hg1 _) x]
  · rw [if_neg h]
    rw [findW_setW_proj _ n (fun y => { y with selected := true }) (fun y => rfl) g hg2 x]

lemma selReconcileAux_proj {β : Type} (g : wmWidget → β)
    (hg1 : ∀ (p : Nat) (y : wmWidget),
      g { y with highlighted := true, highlighted_part := p } = g y)
    (hg2 : ∀ y : wmWidget, g { y with selected := true } = g y)
    (l : List Nat) : ∀ (st : wmWidgetMap) (x : Nat),
    (findW (selReconcileAux st l).1.store x).map g = (findW st.store x).map g := by
  induction l with
  | nil => intro st x; rfl
  | cons s rest ih =>
    intro st x
    cases hlk : ghashLookup (cacheOf st) (getW st.store s).idname with
    | none =>
      rw [(selReconcileAux_cons_none st s rest hlk).1]
      exact ih st x
    | some n =>
      rw [(selReconcileAux_cons_some st s rest n hlk).1]
      rw [ih (selStep st s n) x, selStep_proj g hg1 hg2 st s n x]

lemma getW_proj_of_findW_map {β : Type} (g : wmWidget → β) (s1 s2 : List wmWidget) (x : Nat)
    (h : (findW s1 x).map g = (findW s2 x).map g) : g (getW s1 x) = g (getW s2 x) := by
  rw [getW, getW]
  cases h1 : findW s1 x with
  | none =>
    cases h2 : findW s2 x with
    | none => rfl
    | some w2 => rw [h1, h2] at h; exact absurd h (by simp)
  | some w1 =>
    cases h2 : findW s2 x with
    | none => rw [h1, h2] at h; exact absurd h (by simp)
    | some w2 =>
      rw [h1, h2] at h
      simp at h
      simp [h]

lemma selStep_selected_mono (st : wmWidgetMap) (s n x : Nat) (w : wmWidget)
    (h : findW st.store x = some w) (hw : w.selected = true) :
    ∃ w', findW (selStep st s n).store x = some w' ∧ w'.selected = true := by
  rw [selStep_store]
  by_cases hh : (getW st.store s).highlighted = true
  · rw [if_pos hh]
    have h1 := findW_setW_some st.store n (fun y => { y with highlighted := true, highlighted_part := (getW st.store s).highlighted_part }) (fun y => rfl) x w h
    have h2 := findW_setW_some _ n (fun y => { y with selected := true }) (fun y => rfl) x _ h1
    refine ⟨_, h2, ?_⟩
    by_cases hwn : w.tag = n <;> simp [hwn, hw]
  · rw [if_neg hh]
    have h1 := findW_setW_some st.store n (fun y => { y with selected := true })
      (fun y => rfl) x w h
    refine ⟨_, h1, ?_⟩
    by_cases hwn : w.tag = n <;> simp [hwn, hw]

lemma selReconcileAux_selected_mono (l : List Nat) : ∀ (st : wmWidgetMap) (x : Nat)
    (w : wmWidget), findW st.store x = some w → w.selected = true →
    ∃ w', findW (selReconcileAux st l).1.store x = some w' ∧ w'.selected = true := by
  induction l with
  | nil => intro st x w h hw; exact ⟨w, h, hw⟩
  | cons s rest ih =>
    intro st x w h hw
    cases hlk : ghashLookup (cacheOf st) (getW st.store s).idname with
    | none =>
      rw [(selReconcileAux_cons_none st s rest hlk).1]
      exact ih st x w h hw
    | some n =>
      rw [(selReconcileAux_cons_some st s rest n hlk).1]
      obtain ⟨w1, h1, hw1⟩ := selStep_selected_mono st s n x w h hw
      exact ih (selStep st s n) x w1 h1 hw1

lemma selReconcileAux_kept (l : List Nat) : ∀ (st : wmWidgetMap) (s : Nat),
    s ∈ l →
    ghashLookup (cacheOf st) (getW st.store s).idname = none →
    s ∈ (selReconcileAux st l).2 := by
  induction l with
  | nil => intro st s hm; simp at hm
  | cons a rest ih =>
    intro st s hm hn
    rcases List.mem_cons.mp hm with he | hm2
    · subst he
      rw [(selReconcileAux_cons_none st s rest hn).2]
      exact List.mem_cons_self _ _
    · cases hlk : ghashLookup (cacheOf st) (getW st.store a).idname with
      | none =>
        rw [(selReconcileAux_cons_none st a rest hlk).2]
        exact List.mem_cons_of_mem a (ih st s hm2 hn)
      | some n =>
        rw [(selReconcileAux_cons_some st a rest n hlk).2]
        refine List.mem_cons_of_mem n (ih (selStep st a n) s hm2 ?_)
        have hdw : (selStep st a n).draw_widgets = st.draw_widgets := (selStep_frame st a n).1
        have hid : (getW (selStep st a n).store s).idname = (getW st.store s).idname :=
          getW_proj_of_findW_map (fun w => w.idname) _ _ s
            (selStep_proj (fun w => w.idname) (fun p y => rfl) (fun y => rfl) st a n s)
        rw [cacheOf, hdw, hid]
        rw [cacheOf] at hn
        exact hn

lemma highlightReconcile_frame (st : wmWidgetMap) (hl : Option Nat) :
    (highlightReconcile st hl).widgetgroups = st.widgetgroups ∧
    (highlightReconcile st hl).draw_widgets = st.draw_widgets ∧
    (highlightReconcile st hl).activegroup = st.activegroup ∧
    (highlightReconcile st hl).active_widget = st.active_widget ∧
    (highlightReconcile st hl).selected_widgets = st.selected_widgets ∧
    (highlightReconcile st hl).events = st.events := by
  cases hl with
  | none => exact ⟨rfl, rfl, rfl, rfl, rfl, rfl⟩
  | some h =>
    simp only [highlightReconcile]
    cases hlk : ghashLookup (cacheOf st) (getW st.store h).idname with
    | none => exact ⟨rfl, rfl, rfl, rfl, rfl, rfl⟩
    | some nw => simp [widget_highlight_update]

lemma foldl_named_nomatch (ws : List wmWidget) (k : String) :
    ∀ (acc : Option Nat), (∀ w ∈ ws, w.idname ≠ k) →
    ws.foldl (fun acc w => if w.idname = k then some w.tag else acc) acc = acc := by
  induction ws with
  | nil => intro acc _; rfl
  | cons u rest ih =>
    intro acc hno
    rw [List.foldl_cons, if_neg (hno u (List.mem_cons_self u rest))]
    exact ih acc fun w hw => hno w (List.mem_cons_of_mem u hw)

lemma foldl_named_single (ws : List wmWidget) (k : String) (W : wmWidget) :
    ∀ (acc : Option Nat), ws.filter (fun w => w.idname = k) = [W] →
    ws.foldl (fun acc w => if w.idname = k then some w.tag else acc) acc = some W.tag := by
  induction ws with
  | nil => intro acc h; simp at h
  | cons u rest ih =>
    intro acc h
    by_cases hu : u.idname = k
    · rw [List.filter_cons, if_pos (by simp [hu])] at h
      have h2 := List.cons.inj h
      have hno : ∀ w ∈ rest, w.idname ≠ k := by
        intro w hw hc
        have hmf : w ∈ rest.filter (fun w => w.idname = k) :=
          List.mem_filter.mpr ⟨hw, by simp [hc]⟩
        rw [h2.2] at hmf
        simp at hmf
      rw [List.foldl_cons, if_pos hu, foldl_named_nomatch rest k _ hno, h2.1]
    · rw [List.filter_cons, if_neg (by simp [hu])] at h
      rw [List.foldl_cons, if_neg hu]
      exact ih acc h

/-! ### Claim C2: stale selected entries survive the update pass -/

/-- C2 (amended): during `WM_widgetmap_widgets_update`, a selected entry
whose idname has no visible replacement in the rebuilt hash is NOT
removed from the selection context: the `continue` at wm_widgets.c:306-307
skips it, so the old tag stays in the array, the array length is
unchanged and the old widget instance survives with its selected flag
set. -/
theorem C2_stale_selection_kept (st : wmWidgetMap) (t : Nat) (wt : wmWidget)
    (hact : st.active_widget = none)
    (hgs : st.widgetgroups ≠ [])
    (hdw : st.draw_widgets = some [])
    (hnohl : ∀ w ∈ st.store, w.highlighted = false)
    (hfrhl : ∀ g ∈ st.widgetgroups, ∀ w ∈ g.fresh, w.highlighted = false)
    (hmem : t ∈ st.selected_widgets)
    (hfind : findW st.store t = some wt)
    (hsel : wt.selected = true)
    (hnorep : ∀ w ∈ freshVisibleOf st.widgetgroups, w.idname ≠ wt.idname) :
    t ∈ (WM_widgetmap_widgets_update st).selected_widgets ∧
    (WM_widgetmap_widgets_update st).selected_widgets.length =
      st.selected_widgets.length ∧
    ∃ w', findW (WM_widgetmap_widgets_update st).store t = some w' ∧
      w'.selected = true := by
  have hne : ¬ st.draw_widgets = none := by rw [hdw]; simp
  have hupd : WM_widgetmap_widgets_update st =
      selectedReconcile (highlightReconcile
        { (updateGroupsAux st none st.widgetgroups).1 with widgetgroups := (updateGroupsAux st none st.widgetgroups).2.2 }
        (updateGroupsAux st none st.widgetgroups).2.1) := by
    simp only [WM_widgetmap_widgets_update, if_neg hne, hact, if_neg hgs]
  obtain ⟨hhl, _⟩ := updateGroupsAux_no_hl st.widgetgroups st none hnohl hfrhl
  rw [hhl] at hupd
  obtain ⟨hkept, _, _⟩ := updateGroupsAux_kept st.widgetgroups st none t wt hfind
    (Or.inl hsel)
  obtain ⟨f1, f2, f3, f4, f5, f6, f7⟩ := updateGroupsAux_frame2 st.widgetgroups st none
  have hfind1 : findW ({ (updateGroupsAux st none st.widgetgroups).1 with widgetgroups := (updateGroupsAux st none st.widgetgroups).2.2 } : wmWidgetMap).store t = some wt := hkept
  have hgetid : (getW ({ (updateGroupsAux st none st.widgetgroups).1 with widgetgroups := (updateGroupsAux st none st.widgetgroups).2.2 } : wmWidgetMap).store t).idname = wt.idname := by
    rw [getW, hfind1]
    rfl
  have hsome : st.draw_widgets.isSome = true := by rw [hdw]; rfl
  have hbase : ghashLookup (cacheOf st) wt.idname = none := by
    rw [cacheOf, hdw]
    rfl
  have hlookup : ghashLookup (cacheOf ({ (updateGroupsAux st none st.widgetgroups).1 with widgetgroups := (updateGroupsAux st none st.widgetgroups).2.2 } : wmWidgetMap)) wt.idname = none := by
    have hlk := updateGroupsAux_lookup st.widgetgroups st none wt.idname hsome
    have hcc : cacheOf ({ (updateGroupsAux st none st.widgetgroups).1 with widgetgroups := (updateGroupsAux st none st.widgetgroups).2.2 } : wmWidgetMap) = cacheOf (updateGroupsAux st none st.widgetgroups).1 := rfl
    rw [hcc, hlk, hbase]
    exact foldl_named_nomatch (freshVisibleOf st.widgetgroups) wt.idname none hnorep
  have hsel1 : ({ (updateGroupsAux st none st.widgetgroups).1 with widgetgroups := (updateGroupsAux st none st.widgetgroups).2.2 } : wmWidgetMap).selected_widgets = st.selected_widgets := f5
  have hhlrec : highlightReconcile ({ (updateGroupsAux st none st.widgetgroups).1 with widgetgroups := (updateGroupsAux st none st.widgetgroups).2.2 } : wmWidgetMap) none = ({ (updateGroupsAux st none st.widgetgroups).1 with widgetgroups := (updateGroupsAux st none st.widgetgroups).2.2 } : wmWidgetMap) := rfl
  rw [hhlrec] at hupd
  have hselne : ({ (updateGroupsAux st none st.widgetgroups).1 with widgetgroups := (updateGroupsAux st none st.widgetgroups).2.2 } : wmWidgetMap).selected_widgets ≠ [] := by
    rw [hsel1]
    exact List.ne_nil_of_mem hmem
  have hrec : selectedReconcile ({ (updateGroupsAux st none st.widgetgroups).1 with widgetgroups := (updateGroupsAux st none st.widgetgroups).2.2 } : wmWidgetMap) =
      { (selReconcileAux ({ (updateGroupsAux st none st.widgetgroups).1 with widgetgroups := (updateGroupsAux st none st.widgetgroups).2.2 } : wmWidgetMap) ({ (updateGroupsAux st none st.widgetgroups).1 with widgetgroups := (updateGroupsAux st none st.widgetgroups).2.2 } : wmWidgetMap).selected_widgets).1 with selected_widgets := (selReconcileAux ({ (updateGroupsAux st none st.widgetgroups).1 with widgetgroups := (updateGroupsAux st none st.widgetgroups).2.2 } : wmWidgetMap) ({ (updateGroupsAux st none st.widgetgroups).1 with widgetgroups := (updateGroupsAux st none st.widgetgroups).2.2 } : wmWidgetMap).selected_widgets).2 } := by
    rw [selectedReconcile, if_neg hselne]
  rw [hrec] at hupd
  rw [hupd]
  refine ⟨?_, ?_, ?_⟩
  · refine selReconcileAux_kept _ _ t (by rw [hsel1]; exact hmem) ?_
    rw [hgetid]
    exact hlookup
  · rw [selReconcileAux_len]
    rw [hsel1]
  · obtain ⟨w', hw', hws⟩ := selReconcileAux_selected_mono
      (({ (updateGroupsAux st none st.widgetgroups).1 with widgetgroups := (updateGroupsAux st none st.widgetgroups).2.2 } : wmWidgetMap).selected_widgets)
      ({ (updateGroupsAux st none st.widgetgroups).1 with widgetgroups := (updateGroupsAux st none st.widgetgroups).2.2 } : wmWidgetMap) t wt hfind1 hsel
    exact ⟨w', hw', hws⟩

/-- C2 counterexample to the claim as stated: on `exC2st` the selected
widget 1 has no same-named replacement among the regenerated widgets, yet
after `WM_widgetmap_widgets_update` it is still in the selection array —
the count is not decremented and the stale reference remains. -/
theorem C2_stale_selection_cex :
    (∀ w ∈ freshVisibleOf exC2st.widgetgroups, w.idname ≠ "g_w") ∧
    exC2st.selected_widgets = [1] ∧
    (WM_widgetmap_widgets_update exC2st).selected_widgets = [1] := by
  decide

/-- Witness for `C2_stale_selection_kept` at the concrete state
`exC2st`. -/
theorem C2_stale_selection_kept_witness :
    1 ∈ (WM_widgetmap_widgets_update exC2st).selected_widgets ∧
    (WM_widgetmap_widgets_update exC2st).selected_widgets.length =
      exC2st.selected_widgets.length ∧
    ∃ w', findW (WM_widgetmap_widgets_update exC2st).store 1 = some w' ∧
      w'.selected = true :=
  C2_stale_selection_kept exC2st 1
    { tag := 1, idname := "g_w", wgroup := 7, hidden := false, highlighted := false,
      selected := true, activeFlag := false, highlighted_part := 0,
      hasSelect := false, cursor := none, hasInvoke := false, hasHandler := false,
      opname := none, interaction_data := false }
    rfl (by decide) rfl (by decide) (by decide) (by decide) (by decide) rfl (by decide)

lemma selectedReconcile_frame (st : wmWidgetMap) :
    (selectedReconcile st).draw_widgets = st.draw_widgets ∧
    (selectedReconcile st).widgetgroups = st.widgetgroups ∧
    (selectedReconcile st).activegroup = st.activegroup ∧
    (selectedReconcile st).active_widget = st.active_widget ∧
    (selectedReconcile st).freed = st.freed ∧
    (selectedReconcile st).events = st.events := by
  by_cases hsel : st.selected_widgets = []
  · rw [selectedReconcile, if_pos hsel]
    exact ⟨rfl, rfl, rfl, rfl, rfl, rfl⟩
  · rw [selectedReconcile, if_neg hsel]
    obtain ⟨a, b, c, d, _, f, g⟩ := selReconcileAux_frame st.selected_widgets st
    exact ⟨a, b, c, d, f, g⟩

/-! ### Claim C3: cache entries, hidden flags and group polls -/

/-- C3 (amended): on the regeneration path of
`WM_widgetmap_widgets_update` (no active widget, nonempty group list,
hash present and empty), every entry of the resulting cache comes from an
unhidden factory widget of a group that passed its poll, and the entry's
tag is listed in that group's rebuilt widget list of the output state. -/
theorem C3_cache_visible_poll (st : wmWidgetMap)
    (hact : st.active_widget = none)
    (hgs : st.widgetgroups ≠ [])
    (hdw : st.draw_widgets = some []) :
    ∀ p ∈ cacheOf (WM_widgetmap_widgets_update st),
    (∃ g ∈ st.widgetgroups, g.poll = true ∧
      ∃ w ∈ g.fresh, w.hidden = false ∧ p = (w.idname, w.tag)) ∧
    (∃ g' ∈ (WM_widgetmap_widgets_update st).widgetgroups,
      g'.poll = true ∧ p.2 ∈ g'.widgets) := by
  intro p hp
  have hne : ¬ st.draw_widgets = none := by rw [hdw]; simp
  have hupd : WM_widgetmap_widgets_update st =
      selectedReconcile (highlightReconcile
        { (updateGroupsAux st none st.widgetgroups).1 with widgetgroups := (updateGroupsAux st none st.widgetgroups).2.2 }
        (updateGroupsAux st none st.widgetgroups).2.1) := by
    simp only [WM_widgetmap_widgets_update, if_neg hne, hact, if_neg hgs]
  have hdrawfinal : cacheOf (WM_widgetmap_widgets_update st) =
      cacheOf (updateGroupsAux st none st.widgetgroups).1 := by
    rw [hupd, cacheOf, cacheOf, (selectedReconcile_frame _).1,
      (highlightReconcile_frame _ _).2.1]
  rw [hdrawfinal] at hp
  rcases updateGroupsAux_cache_mem st.widgetgroups st none p hp with
    hmem | ⟨g, hg, hpoll, w, hw, hh, he⟩
  · rw [cacheOf, hdw] at hmem
    simp at hmem
  · constructor
    · exact ⟨g, hg, hpoll, w, hw, hh, he⟩
    · have hgroups : (WM_widgetmap_widgets_update st).widgetgroups =
          st.widgetgroups.map (fun g2 => if g2.poll then { g2 with widgets := g2.fresh.map (fun v => v.tag), fresh := [] } else g2) := by
        rw [hupd, (selectedReconcile_frame _).2.1, (highlightReconcile_frame _ _).1]
        have hwg : ({ (updateGroupsAux st none st.widgetgroups).1 with widgetgroups := (updateGroupsAux st none st.widgetgroups).2.2 } : wmWidgetMap).widgetgroups = (updateGroupsAux st none st.widgetgroups).2.2 := rfl
        rw [hwg, updateGroupsAux_groups]
      refine ⟨{ g with widgets := g.fresh.map (fun v => v.tag), fresh := [] }, ?_, ?_, ?_⟩
      · rw [hgroups]
        refine List.mem_map.mpr ⟨g, hg, ?_⟩
        simp [hpoll]
      · exact hpoll
      · rw [he]
        exact List.mem_map.mpr ⟨w, hw, rfl⟩

/-- C3 counterexample to the claim as stated ("after EVERY call ... the
widget belongs to a group whose poll currently holds"): on `exC3st` the
active-widget short-circuit (wm_widgets.c:236-241) reinserts the active
widget into the hash without running any poll, so the cache ends up
holding a widget whose only owning group fails its poll. -/
theorem C3_active_poll_cex :
    ("a_w", 1) ∈ cacheOf (WM_widgetmap_widgets_update exC3st) ∧
    (∃ g ∈ (WM_widgetmap_widgets_update exC3st).widgetgroups, 1 ∈ g.widgets) ∧
    (∀ g ∈ (WM_widgetmap_widgets_update exC3st).widgetgroups,
      1 ∈ g.widgets → g.poll = false) := by
  decide

/-- Witness for `C3_cache_visible_poll` at the concrete state `exC3w`. -/
theorem C3_cache_visible_poll_witness :
    exC3w.active_widget = none ∧ exC3w.draw_widgets = some [] ∧
    (∀ p ∈ cacheOf (WM_widgetmap_widgets_update exC3w),
      (∃ g ∈ exC3w.widgetgroups, g.poll = true ∧
        ∃ w ∈ g.fresh, w.hidden = false ∧ p = (w.idname, w.tag)) ∧
      (∃ g' ∈ (WM_widgetmap_widgets_update exC3w).widgetgroups,
        g'.poll = true ∧ p.2 ∈ g'.widgets)) :=
  ⟨rfl, rfl, C3_cache_visible_poll exC3w rfl (by decide) rfl⟩

/-! ### Claim C4: highlight continuity across regeneration -/

/-- C4 (amended): on the regeneration path, when a non-selected widget is
highlighted (and it alone), if its idname has exactly one visible
replacement among the regenerated widgets, then afterwards the
highlighted slot points at that replacement, the replacement instance
carries the highlight flag and the old sub-part code, and the old
instance is struct- and data-freed exactly once; if no same-named visible
replacement exists, the slot is cleared and the old instance is
struct-freed once with its data never freed (`MEM_SAFE_FREE` skips
`wm_widget_data_free`). -/
theorem C4_highlight_continuity (st : wmWidgetMap) (h : Nat) (hw : wmWidget)
    (g : wmWidgetGroup)
    (hact : st.active_widget = none)
    (hgs : st.widgetgroups ≠ [])
    (hdw : st.draw_widgets = some [])
    (hselempty : st.selected_widgets = [])
    (hg : g ∈ st.widgetgroups) (hgp : g.poll = true) (hgm : h ∈ g.widgets)
    (hfind : findW st.store h = some hw)
    (hwsel : hw.selected = false) (hwhl : hw.highlighted = true)
    (honly : ∀ w ∈ st.store, w.highlighted = true → w.tag = h)
    (hfr : ∀ g2 ∈ st.widgetgroups, ∀ w ∈ g2.fresh, w.highlighted = false)
    (hndW : (groupsWidgetTags st.widgetgroups).Nodup)
    (hndF : (groupsFreshTags st.widgetgroups).Nodup)
    (hfreshnew : ∀ v ∈ groupsFreshTags st.widgetgroups, findW st.store v = none)
    (hdisj : ∀ v ∈ groupsFreshTags st.widgetgroups, v ∉ groupsWidgetTags st.widgetgroups)
    (hfreed0 : st.freed.count h = 0) (hdata0 : st.dataFreed.count h = 0) :
    (∀ W : wmWidget, freshNamedList st.widgetgroups hw.idname = [W] →
      (WM_widgetmap_widgets_update st).highlighted_widget = some W.tag ∧
      (∃ w', findW (WM_widgetmap_widgets_update st).store W.tag = some w' ∧
        w'.highlighted = true ∧ w'.highlighted_part = hw.highlighted_part ∧
        w'.idname = hw.idname) ∧
      (WM_widgetmap_widgets_update st).freed.count h = 1 ∧
      (WM_widgetmap_widgets_update st).dataFreed.count h = 1) ∧
    (freshNamedList st.widgetgroups hw.idname = [] →
      (WM_widgetmap_widgets_update st).highlighted_widget = none ∧
      (WM_widgetmap_widgets_update st).freed.count h = 1 ∧
      (WM_widgetmap_widgets_update st).dataFreed.count h = 0) := by
  have hne : ¬ st.draw_widgets = none := by rw [hdw]; simp
  have hupd : WM_widgetmap_widgets_update st =
      selectedReconcile (highlightReconcile
        { (updateGroupsAux st none st.widgetgroups).1 with widgetgroups := (updateGroupsAux st none st.widgetgroups).2.2 }
        (updateGroupsAux st none st.widgetgroups).2.1) := by
    simp only [WM_widgetmap_widgets_update, if_neg hne, hact, if_neg hgs]
  have hhl : (updateGroupsAux st none st.widgetgroups).2.1 = some h :=
    updateGroupsAux_hl_single st.widgetgroups st none h hw g hg hgp hgm hfind hwsel hwhl
      honly hfr hndW
  rw [hhl] at hupd
  obtain ⟨hkept, hc1, hc2⟩ := updateGroupsAux_kept st.widgetgroups st none h hw hfind
    (Or.inr hwhl)
  obtain ⟨f1, f2, f3, f4, f5, f6, f7⟩ := updateGroupsAux_frame2 st.widgetgroups st none
  have hfindST1 : findW ({ (updateGroupsAux st none st.widgetgroups).1 with widgetgroups := (updateGroupsAux st none st.widgetgroups).2.2 } : wmWidgetMap).store h = some hw := hkept
  have hgetid : (getW ({ (updateGroupsAux st none st.widgetgroups).1 with widgetgroups := (updateGroupsAux st none st.widgetgroups).2.2 } : wmWidgetMap).store h).idname = hw.idname := by
    rw [getW, hfindST1]
    rfl
  have hpart : (getW ({ (updateGroupsAux st none st.widgetgroups).1 with widgetgroups := (updateGroupsAux st none st.widgetgroups).2.2 } : wmWidgetMap).store h).highlighted_part = hw.highlighted_part := by
    rw [getW, hfindST1]
    rfl
  have hsome : st.draw_widgets.isSome = true := by rw [hdw]; rfl
  have hbase : ghashLookup (cacheOf st) hw.idname = none := by
    rw [cacheOf, hdw]
    rfl
  have hlk := updateGroupsAux_lookup st.widgetgroups st none hw.idname hsome
  have hst2sel : ∀ hlv : Option Nat,
      (highlightReconcile ({ (updateGroupsAux st none st.widgetgroups).1 with widgetgroups := (updateGroupsAux st none st.widgetgroups).2.2 } : wmWidgetMap) hlv).selected_widgets = [] := by
    intro hlv
    rw [(highlightReconcile_frame _ _).2.2.2.2.1]
    exact f5.trans hselempty
  have hrecsel : selectedReconcile (highlightReconcile ({ (updateGroupsAux st none st.widgetgroups).1 with widgetgroups := (updateGroupsAux st none st.widgetgroups).2.2 } : wmWidgetMap) (some h)) = highlightReconcile ({ (updateGroupsAux st none st.widgetgroups).1 with widgetgroups := (updateGroupsAux st none st.widgetgroups).2.2 } : wmWidgetMap) (some h) := by
    rw [selectedReconcile, if_pos (hst2sel (some h))]
  rw [hrecsel] at hupd
  have hfreedST1 : ({ (updateGroupsAux st none st.widgetgroups).1 with widgetgroups := (updateGroupsAux st none st.widgetgroups).2.2 } : wmWidgetMap).freed.count h = 0 := hc1.trans hfreed0
  have hdataST1 : ({ (updateGroupsAux st none st.widgetgroups).1 with widgetgroups := (updateGroupsAux st none st.widgetgroups).2.2 } : wmWidgetMap).dataFreed.count h = 0 := hc2.trans hdata0
  constructor
  · -- found branch
    intro W hWeq
    rw [freshNamedList] at hWeq
    have hWmemf : W ∈ (freshVisibleOf st.widgetgroups).filter (fun w => w.idname = hw.idname) := by
      rw [hWeq]
      exact List.mem_singleton_self W
    have hWv : W ∈ freshVisibleOf st.widgetgroups := (List.mem_filter.mp hWmemf).1
    have hWid : W.idname = hw.idname := by
      have := (List.mem_filter.mp hWmemf).2
      simpa using this
    obtain ⟨gW, hgWmem, hgWp, hWf, hWhid⟩ :
        ∃ gW ∈ st.widgetgroups, gW.poll = true ∧ W ∈ gW.fresh ∧ W.hidden = false := by
      rw [freshVisibleOf] at hWv
      obtain ⟨gW, hgWf, hWm⟩ := List.mem_bind.mp hWv
      have h1 := List.mem_filter.mp hgWf
      have h2 := List.mem_filter.mp hWm
      exact ⟨gW, h1.1, by simpa using h1.2, h2.1, by simpa using h2.2⟩
    have hWtagF : W.tag ∈ groupsFreshTags st.widgetgroups := by
      rw [groupsFreshTags]
      exact List.mem_bind.mpr ⟨gW, hgWmem, List.mem_map.mpr ⟨W, hWf, rfl⟩⟩
    have hWneh : W.tag ≠ h := by
      intro hc
      have hn := hfreshnew W.tag hWtagF
      rw [hc, hfind] at hn
      simp at hn
    have hfindWfresh : findW ({ (updateGroupsAux st none st.widgetgroups).1 with widgetgroups := (updateGroupsAux st none st.widgetgroups).2.2 } : wmWidgetMap).store W.tag = some { W with wgroup := gW.gid } :=
      updateGroupsAux_findW_fresh st.widgetgroups st none gW W hgWmem hgWp hWf hndF
        hfreshnew hdisj
    have hlookupST1 : ghashLookup (cacheOf ({ (updateGroupsAux st none st.widgetgroups).1 with widgetgroups := (updateGroupsAux st none st.widgetgroups).2.2 } : wmWidgetMap)) hw.idname = some W.tag := by
      have hv : ghashLookup (cacheOf (updateGroupsAux st none st.widgetgroups).1) hw.idname = some W.tag := by
        rw [hlk, hbase]
        exact foldl_named_single (freshVisibleOf st.widgetgroups) hw.idname W none hWeq
      exact hv
    have hslot : (highlightReconcile ({ (updateGroupsAux st none st.widgetgroups).1 with widgetgroups := (updateGroupsAux st none st.widgetgroups).2.2 } : wmWidgetMap) (some h)).highlighted_widget = some W.tag := by
      simp [highlightReconcile, hgetid, hlookupST1, widget_highlight_update]
    have hstore : (highlightReconcile ({ (updateGroupsAux st none st.widgetgroups).1 with widgetgroups := (updateGroupsAux st none st.widgetgroups).2.2 } : wmWidgetMap) (some h)).store = removeW (setW ({ (updateGroupsAux st none st.widgetgroups).1 with widgetgroups := (updateGroupsAux st none st.widgetgroups).2.2 } : wmWidgetMap).store W.tag (fun x => { x with highlighted := true, highlighted_part := hw.highlighted_part })) h := by
      simp [highlightReconcile, hgetid, hlookupST1, widget_highlight_update, hpart]
    have hfreedeq : (highlightReconcile ({ (updateGroupsAux st none st.widgetgroups).1 with widgetgroups := (updateGroupsAux st none st.widgetgroups).2.2 } : wmWidgetMap) (some h)).freed = ({ (updateGroupsAux st none st.widgetgroups).1 with widgetgroups := (updateGroupsAux st none st.widgetgroups).2.2 } : wmWidgetMap).freed ++ [h] := by
      simp [highlightReconcile, hgetid, hlookupST1, widget_highlight_update]
    have hdataeq : (highlightReconcile ({ (updateGroupsAux st none st.widgetgroups).1 with widgetgroups := (updateGroupsAux st none st.widgetgroups).2.2 } : wmWidgetMap) (some h)).dataFreed = ({ (updateGroupsAux st none st.widgetgroups).1 with widgetgroups := (updateGroupsAux st none st.widgetgroups).2.2 } : wmWidgetMap).dataFreed ++ [h] := by
      simp [highlightReconcile, hgetid, hlookupST1, widget_highlight_update]
    refine ⟨?_, ?_, ?_, ?_⟩
    · rw [hupd, hslot]
    · rw [hupd, hstore]
      refine ⟨{ { W with wgroup := gW.gid } with highlighted := true, highlighted_part := hw.highlighted_part }, ?_, rfl, rfl, hWid⟩
      rw [findW_removeW _ h W.tag hWneh]
      exact findW_setW_self _ W.tag (fun x => { x with highlighted := true, highlighted_part := hw.highlighted_part }) (fun y => rfl) _ hfindWfresh
    · rw [hupd, hfreedeq, List.count_append, hfreedST1]
      simp
    · rw [hupd, hdataeq, List.count_append, hdataST1]
      simp
  · -- no-replacement branch
    intro hnoneW
    rw [freshNamedList] at hnoneW
    have hno : ∀ w ∈ freshVisibleOf st.widgetgroups, w.idname ≠ hw.idname := by
      intro w hwm hc
      have hmf : w ∈ (freshVisibleOf st.widgetgroups).filter (fun w => w.idname = hw.idname) :=
        List.mem_filter.mpr ⟨hwm, by simp [hc]⟩
      rw [hnoneW] at hmf
      simp at hmf
    have hlookupn : ghashLookup (cacheOf ({ (updateGroupsAux st none st.widgetgroups).1 with widgetgroups := (updateGroupsAux st none st.widgetgroups).2.2 } : wmWidgetMap)) hw.idname = none := by
      have hv : ghashLookup (cacheOf (updateGroupsAux st none st.widgetgroups).1) hw.idname = none := by
        rw [hlk, hbase]
        exact foldl_named_nomatch (freshVisibleOf st.widgetgroups) hw.idname none hno
      exact hv
    refine ⟨?_, ?_, ?_⟩
    · rw [hupd]
      simp [highlightReconcile, hgetid, hlookupn]
    · rw [hupd]
      have hfreedeq : (highlightReconcile ({ (updateGroupsAux st none st.widgetgroups).1 with widgetgroups := (updateGroupsAux st none st.widgetgroups).2.2 } : wmWidgetMap) (some h)).freed = ({ (updateGroupsAux st none st.widgetgroups).1 with widgetgroups := (updateGroupsAux st none st.widgetgroups).2.2 } : wmWidgetMap).freed ++ [h] := by
        simp [highlightReconcile, hgetid, hlookupn]
      rw [hfreedeq, List.count_append, hfreedST1]
      simp
    · rw [hupd]
      have hdataeq : (highlightReconcile ({ (updateGroupsAux st none st.widgetgroups).1 with widgetgroups := (updateGroupsAux st none st.widgetgroups).2.2 } : wmWidgetMap) (some h)).dataFreed = ({ (updateGroupsAux st none st.widgetgroups).1 with widgetgroups := (updateGroupsAux st none st.widgetgroups).2.2 } : wmWidgetMap).dataFreed := by
        simp [highlightReconcile, hgetid, hlookupn]
      rw [hdataeq, hdataST1]

/-- C4 counterexample to the claim as stated: on `exC4st` the highlighted
widget is also selected, so the deletion loop detaches it through the
selected branch, the highlight transfer happens in the selection
reconciliation instead, and the old struct is deliberately leaked (the
`XXX` comment at wm_widgets.c:316) — it is never freed, refuting "the old
instance is freed exactly once". -/
theorem C4_selected_highlight_cex :
    exC4st.highlighted_widget = some 1 ∧
    (getW exC4st.store 1).highlighted = true ∧
    (∃ w ∈ freshVisibleOf exC4st.widgetgroups,
      w.idname = (getW exC4st.store 1).idname ∧ w.hidden = false) ∧
    (WM_widgetmap_widgets_update exC4st).highlighted_widget = some 2 ∧
    (WM_widgetmap_widgets_update exC4st).freed.count 1 = 0 := by
  decide

/-- Witness for `C4_highlight_continuity` at the concrete state `exC4w`,
whose factory produces exactly one visible replacement for the
highlighted widget's idname. -/
theorem C4_highlight_continuity_witness :
    (∀ W : wmWidget, freshNamedList exC4w.widgetgroups exC4wOld.idname = [W] →
      (WM_widgetmap_widgets_update exC4w).highlighted_widget = some W.tag ∧
      (∃ w', findW (WM_widgetmap_widgets_update exC4w).store W.tag = some w' ∧
        w'.highlighted = true ∧ w'.highlighted_part = exC4wOld.highlighted_part ∧
        w'.idname = exC4wOld.idname) ∧
      (WM_widgetmap_widgets_update exC4w).freed.count 1 = 1 ∧
      (WM_widgetmap_widgets_update exC4w).dataFreed.count 1 = 1) ∧
    (freshNamedList exC4w.widgetgroups exC4wOld.idname = [] →
      (WM_widgetmap_widgets_update exC4w).highlighted_widget = none ∧
      (WM_widgetmap_widgets_update exC4w).freed.count 1 = 1 ∧
      (WM_widgetmap_widgets_update exC4w).dataFreed.count 1 = 0) :=
  C4_highlight_continuity exC4w 1 exC4wOld exC4wGroup rfl (by decide) rfl rfl
    (by decide) (by decide) (by decide) (by decide) (by decide) (by decide)
    (by decide) (by decide) (by decide) (by decide) (by decide) (by decide)
    (by decide) (by decide)

end WmWidgets
